import Mathlib

/-!
# operator-utils: actions, readiness checks, the reconcile cycle and capability detection

A shallow embedding of `actions/controller_actions.go`, `actions/readiness_checks.go`,
`actions/reconciler_common.go`, `status/status.go` and `autodetect/auto_detect.go`.

Conventions of the embedding:
* a Go pointer or interface value that may be `nil` is an `Option`;
* a Go `error` is an `Option GoError` (`none` is the `nil` error);
* code with side effects threads an explicit world `σ` (the object store behind the client);
* a call that dereferences `nil` ends in `Completion.panicked`;
* the process-wide state manager is passed explicitly, and `os.Exit` is an outcome of a tick;
* `for ... range` loops are structural recursions over the list they range over.
-/

namespace Actions

/-! ## Errors and logging -/

/-- The part of a `client.Object` that `ResourceNotReadyError.Error` reads. -/
structure ObjectMeta where
  Namespace : String
  Name : String
deriving DecidableEq, Repr

/-- How a Go call ends: it returns a value, or it dereferences `nil` and panics. -/
inductive Completion (α : Type) where
  | returned (a : α)
  | panicked
deriving DecidableEq, Repr

/-- The result of a call, transformed when the call returned. -/
def Completion.map {α β : Type} (f : α → β) : Completion α → Completion β
  | .returned a => .returned (f a)
  | .panicked => .panicked

/-- The struct `ResourceNotReadyError` (readiness_checks.go:22); its field `PartialObject`
is an interface and may be nil. -/
structure ResourceNotReadyError where
  PartialObject : Option ObjectMeta
deriving DecidableEq, Repr

/-- The dynamic types of non-nil Go `error` values that occur in the package:
`*ResourceNotReadyError` (the pointer inside the interface may itself be nil) and the errors
built by `errors.New` / `errors.Errorf`, which carry a message only. -/
inductive GoError where
  | resourceNotReady (e : Option ResourceNotReadyError)
  | fundamental (msg : String)
deriving DecidableEq, Repr

/-- The method `Error()`; for `*ResourceNotReadyError` it is
`fmt.Sprintf("%v/%v is not ready", e.PartialObject.GetNamespace(), e.PartialObject.GetName())`
(readiness_checks.go:26), which dereferences the receiver and calls through the interface
`PartialObject`: it panics when either is nil. -/
def GoError.Error : GoError → Completion String
  | .resourceNotReady none => .panicked
  | .resourceNotReady (some { PartialObject := none }) => .panicked
  | .resourceNotReady (some { PartialObject := some o }) =>
    .returned (o.Namespace ++ "/" ++ o.Name ++ " is not ready")
  | .fundamental msg => .returned msg

/-- The value `errors.Errorf(format)` called without operands: its message is
`fmt.Sprintf(format)`. The formatter of the Go standard library is a parameter. -/
def Errorf (Sprintf : String → String) (format : String) : GoError :=
  .fundamental (Sprintf format)

/-- One record written through the package logger. `runInfo index outcome msg` is
`log.Info(fmt.Sprintf("(%5d) %10s %s", index, outcome, msg))`; `error err text` is
`log.Error(err, text)`; `info text` is `log.Info(text)`. -/
inductive LogRecord where
  | runInfo (index : Nat) (outcome : String) (msg : String)
  | error (err : GoError) (text : String)
  | info (text : String)
deriving DecidableEq, Repr

/-! ## controller_actions.go -/

/-- The interface `ControllerAction`: `Run(runner) (string, error)`, acting on the world `σ`
through a runner of type `ρ`: the two values returned, the world it leaves and the records
it writes to the log. -/
structure ControllerAction (ρ σ : Type) where
  Run : ρ → σ → (String × Option GoError) × σ × List LogRecord

/-- The type `DesiredResourceState = []ControllerAction`; an entry may be the `nil` interface. -/
abbrev DesiredResourceState (ρ σ : Type) := List (Option (ControllerAction ρ σ))

/-- What a run of `RunAll` leaves behind: the world, the indices of the actions whose `Run`
was called (in call order) and the log. -/
structure RunTrace (σ : Type) where
  world : σ
  invoked : List Nat
  log : List LogRecord

/-- The loop of `RunAll` (controller_actions.go:66-73), from position `index` on. -/
def RunAll.loop {ρ σ : Type} (i : ρ) :
    Nat → DesiredResourceState ρ σ → RunTrace σ → Completion (Option GoError) × RunTrace σ
  | _, [], t => (.returned none, t)
  | _, none :: _, t => (.panicked, t)
  | index, some action :: rest, t =>
    match action.Run i t.world with
    | ((msg, some err), w, written) =>
      (.returned (some err),
        { world := w, invoked := t.invoked ++ [index],
          log := t.log ++ written ++ [.runInfo index "FAILED" msg] })
    | ((msg, none), w, written) =>
      RunAll.loop i (index + 1) rest
        { world := w, invoked := t.invoked ++ [index],
          log := t.log ++ written ++ [.runInfo index "SUCCESS" msg] }

/-- The method `ControllerActionRunner.RunAll` (controller_actions.go:65). -/
def RunAll {ρ σ : Type} (i : ρ) (desiredState : DesiredResourceState ρ σ) (s : σ) :
    Completion (Option GoError) × RunTrace σ :=
  RunAll.loop i 0 desiredState { world := s, invoked := [], log := [] }

/-- The world after each action of `as` has been invoked once, in list order. -/
def worldAfter {ρ σ : Type} (i : ρ) : List (ControllerAction ρ σ) → σ → σ
  | [], s => s
  | a :: rest, s => worldAfter i rest (a.Run i s).2.1

/-- The error the `k`-th action of `as` returns when it is invoked after the `k` actions
before it (`none` also when `as` has no `k`-th action). -/
def outcomeAt {ρ σ : Type} (i : ρ) (as : List (ControllerAction ρ σ)) (s : σ) (k : Nat) :
    Option GoError :=
  match as[k]? with
  | some a => (a.Run i (worldAfter i (as.take k) s)).1.2
  | none => none

/-- The method `DesiredResourceState.AddAction` (controller_actions.go:41): the state behind
the receiver after the call, and the value returned. -/
def AddAction {ρ σ : Type} (d : DesiredResourceState ρ σ) (action : Option (ControllerAction ρ σ)) :
    DesiredResourceState ρ σ × DesiredResourceState ρ σ :=
  match action with
  | some a => (d ++ [some a], d ++ [some a])
  | none => (d, d)

/-- The loop of `AddActions` (controller_actions.go:49-51): the state behind the receiver
after the remaining `actions` were added. -/
def AddActions.loop {ρ σ : Type} :
    DesiredResourceState ρ σ → List (Option (ControllerAction ρ σ)) → DesiredResourceState ρ σ
  | d, [] => d
  | d, action :: rest => AddActions.loop (AddAction d action).2 rest

/-- The method `DesiredResourceState.AddActions` (controller_actions.go:48): the state behind
the receiver after the call, and the value returned. -/
def AddActions {ρ σ : Type} (d : DesiredResourceState ρ σ)
    (actions : List (Option (ControllerAction ρ σ))) :
    DesiredResourceState ρ σ × DesiredResourceState ρ σ :=
  (AddActions.loop d actions, AddActions.loop d actions)

/-! ## status/status.go and the condition library -/

/-- The reason `ReasonReconciling` (status.go:19). -/
def ReasonReconciling : String := "Reconciling"

/-- The reason `ReasonFailing` (status.go:20). -/
def ReasonFailing : String := "Failing"

/-- The reason `ReasonInitializing` (status.go:21). -/
def ReasonInitializing : String := "Initializing"

/-- The condition type `conditions.ConditionAvailable`. -/
def ConditionAvailable : String := "Available"

/-- The status `v1.ConditionTrue`. -/
def ConditionTrue : String := "True"

/-- The status `v1.ConditionFalse`. -/
def ConditionFalse : String := "False"

/-- Modelled from the spec: the type `conditions.Condition` of the condition library, which
is not part of the sources: type, status, reason, message and transition time. -/
structure Condition where
  Type_ : String
  Status : String
  Reason : String
  Message : String
  LastTransitionTime : Nat
deriving DecidableEq, Repr

/-- Modelled from the spec: `conditions.FindStatusCondition` of the condition library, which
is not part of the sources: conditions are keyed by type, the first entry of a type is the
condition of that type. -/
def FindStatusCondition : List Condition → String → Option Condition
  | [], _ => none
  | c :: rest, conditionType =>
    if c.Type_ = conditionType then some c else FindStatusCondition rest conditionType

/-- Modelled from the spec: `conditions.SetStatusCondition` of the condition library, which
is not part of the sources: an upsert by type, never an append of a duplicate. An existing
condition of the type takes the new status, reason and message (and a new transition time
when the status changes); otherwise the new condition is appended, stamped with `now`. -/
def SetStatusCondition (now : Nat) : List Condition → Condition → List Condition
  | [], newCondition => [{ newCondition with LastTransitionTime := now }]
  | c :: rest, newCondition =>
    if c.Type_ = newCondition.Type_ then
      { c with
        Status := newCondition.Status
        Reason := newCondition.Reason
        Message := newCondition.Message
        LastTransitionTime :=
          if c.Status ≠ newCondition.Status then now else c.LastTransitionTime } :: rest
    else c :: SetStatusCondition now rest newCondition

/-! ## reconciler_common.go -/

/-- The constant `time.Second`, in nanoseconds. -/
def Second : Int := 1000000000

/-- The constant `time.Minute`, in nanoseconds. -/
def Minute : Int := 60 * Second

/-- The constant `RequeueDelay` (reconciler_common.go:20). -/
def RequeueDelay : Int := 60 * Minute

/-- The constant `RequeueDelayError` (reconciler_common.go:21). -/
def RequeueDelayError : Int := 5 * Second

/-- The type `reconcile.Result`; the zero value has `Requeue = false`, `RequeueAfter = 0`. -/
structure Result where
  Requeue : Bool := false
  RequeueAfter : Int := 0
deriving DecidableEq, Repr

/-- The interface `client.Client` over objects of type `ι` (`client.Object`) and the world
`σ`. `StatusUpdate` is the call `client.Status().Update(ctx, instance)`: it sees the instance
and the condition list reachable from it. `Create`, `Update` and `Delete` are the store
primitives. Each acts on the world and returns an error or `nil`. -/
structure Client (σ ι : Type) where
  StatusUpdate : ι → List Condition → σ → Option GoError × σ
  Create : ι → σ → Option GoError × σ
  Update : ι → σ → Option GoError × σ
  Delete : ι → σ → Option GoError × σ

/-- What `ManageError` and `ManageSuccess` return and leave behind: the two return values,
the condition list behind the pointer `statusConditions`, the world and the log. -/
structure ManageOutcome (σ : Type) where
  result : Result
  err : Option GoError
  conditions : List Condition
  world : σ
  log : List LogRecord

/-- The function `IsResourceNotReadyError` (readiness_checks.go:30). -/
def IsResourceNotReadyError : Option GoError → Bool
  | none => false
  | some (.resourceNotReady _) => true
  | some _ => false

/-- The function `ManageError` (reconciler_common.go:29), for a non-nil `issue`; `now` is the
clock the condition library reads. The first thing evaluated is `issue.Error()`, for the
message of the condition; when it panics nothing else happens. -/
def ManageError {σ ι : Type} (client : Client σ ι) (inst : ι) (statusConditions : List Condition)
    (issue : GoError) (now : Nat) (s : σ) : Completion (ManageOutcome σ) :=
  match issue.Error with
  | .panicked => .panicked
  | .returned message =>
    let condition : Condition :=
      { Type_ := ConditionAvailable, Status := ConditionFalse, Message := message,
        Reason := "", LastTransitionTime := 0 }
    let condition : Condition :=
      if IsResourceNotReadyError (some issue) then
        { condition with Reason := ReasonInitializing }
      else { condition with Reason := ReasonFailing }
    let conds := SetStatusCondition now statusConditions condition
    let updated := client.StatusUpdate inst conds s
    let log := match updated.1 with
      | some e => [LogRecord.error e "unable to update status"]
      | none => []
    .returned
      { result := { RequeueAfter := RequeueDelayError, Requeue := true }, err := none,
        conditions := conds, world := updated.2, log := log }

/-- The function `ManageSuccess` (reconciler_common.go:55). -/
def ManageSuccess {σ ι : Type} (client : Client σ ι) (inst : ι)
    (statusConditions : List Condition) (resourcesReady : Bool) (now : Nat) (s : σ) :
    ManageOutcome σ :=
  let condition : Condition :=
    { Type_ := ConditionAvailable, Status := "", Reason := "", Message := "",
      LastTransitionTime := 0 }
  let condition : Condition :=
    if resourcesReady then
      { condition with
        Status := ConditionTrue, Reason := ReasonReconciling,
        Message := "All resource are ready" }
    else
      { condition with
        Status := ConditionFalse, Reason := ReasonInitializing,
        Message := "One or more resources are not ready" }
  let conds := SetStatusCondition now statusConditions condition
  match client.StatusUpdate inst conds s with
  | (some e, w) =>
    { result := { RequeueAfter := RequeueDelayError, Requeue := true }, err := none,
      conditions := conds, world := w, log := [.error e "unable to update status"] }
  | (none, w) =>
    { result := { RequeueAfter := RequeueDelay }, err := none,
      conditions := conds, world := w, log := [] }

/-! ## controller_actions.go: the runner -/

/-- The part of `*runtime.Scheme` the runner uses: the call
`controllerutil.SetControllerReference(owner, resource, scheme)`, which returns an error or
`nil` together with the resource as it leaves it. -/
structure Scheme (ι : Type) where
  SetControllerReference : ι → ι → Option GoError × ι

/-- The type `ControllerActionRunner` (controller_actions.go:34), without the context. -/
structure ControllerActionRunner (σ ι : Type) where
  client : Client σ ι
  scheme : Scheme ι
  cr : ι

/-- The function `NewControllerActionRunner` (controller_actions.go:56). -/
def NewControllerActionRunner {σ ι : Type} (client : Client σ ι) (scheme : Scheme ι) (cr : ι) :
    ControllerActionRunner σ ι :=
  { client := client, scheme := scheme, cr := cr }

/-- A call a runner method makes to one of its collaborators, with its arguments. -/
inductive CallRecord (ι : Type) where
  | setControllerReference (owner resource : ι)
  | create (obj : ι)
  | update (obj : ι)
  | delete (obj : ι)
deriving DecidableEq, Repr

/-- Whether a call goes to a store primitive (create, update or delete). -/
def CallRecord.isStore {ι : Type} : CallRecord ι → Bool
  | .setControllerReference _ _ => false
  | _ => true

/-- What a runner method returns and leaves behind: the error, the target object, the world,
the calls made to the collaborators (in call order) and the log. -/
structure CallOutcome (σ ι : Type) where
  err : Option GoError
  obj : ι
  world : σ
  calls : List (CallRecord ι)
  log : List LogRecord

/-- The method `ControllerActionRunner.Create` (controller_actions.go:78). -/
def ControllerActionRunner.Create {σ ι : Type} (i : ControllerActionRunner σ ι) (obj : ι)
    (skipOwnerRef : Bool) (s : σ) : CallOutcome σ ι :=
  if !skipOwnerRef then
    match i.scheme.SetControllerReference i.cr obj with
    | (some err, resource) =>
      { err := some err, obj := resource, world := s,
        calls := [.setControllerReference i.cr obj],
        log := [.error err "Error setting controller reference"] }
    | (none, resource) =>
      match i.client.Create resource s with
      | (some err, w) =>
        { err := some err, obj := resource, world := w,
          calls := [.setControllerReference i.cr obj, .create resource],
          log := [.error err "Error creating object"] }
      | (none, w) =>
        { err := none, obj := resource, world := w,
          calls := [.setControllerReference i.cr obj, .create resource], log := [] }
  else
    match i.client.Create obj s with
    | (some err, w) =>
      { err := some err, obj := obj, world := w, calls := [.create obj],
        log := [.error err "Error creating object"] }
    | (none, w) => { err := none, obj := obj, world := w, calls := [.create obj], log := [] }

/-- The method `ControllerActionRunner.Update` (controller_actions.go:99). -/
def ControllerActionRunner.Update {σ ι : Type} (i : ControllerActionRunner σ ι) (obj : ι)
    (skipOwnerRef : Bool) (s : σ) : CallOutcome σ ι :=
  if !skipOwnerRef then
    match i.scheme.SetControllerReference i.cr obj with
    | (some err, resource) =>
      { err := some err, obj := resource, world := s,
        calls := [.setControllerReference i.cr obj],
        log := [.error err "Error setting controller reference"] }
    | (none, resource) =>
      match i.client.Update resource s with
      | (some err, w) =>
        { err := some err, obj := resource, world := w,
          calls := [.setControllerReference i.cr obj, .update resource],
          log := [.error err "Error updating object"] }
      | (none, w) =>
        { err := none, obj := resource, world := w,
          calls := [.setControllerReference i.cr obj, .update resource], log := [] }
  else
    match i.client.Update obj s with
    | (some err, w) =>
      { err := some err, obj := obj, world := w, calls := [.update obj],
        log := [.error err "Error updating object"] }
    | (none, w) => { err := none, obj := obj, world := w, calls := [.update obj], log := [] }

/-- The method `ControllerActionRunner.Delete` (controller_actions.go:120). -/
def ControllerActionRunner.Delete {σ ι : Type} (i : ControllerActionRunner σ ι) (obj : ι)
    (s : σ) : CallOutcome σ ι :=
  match i.client.Delete obj s with
  | (some err, w) =>
    { err := some err, obj := obj, world := w, calls := [.delete obj],
      log := [.error err "Error deleting object"] }
  | (none, w) => { err := none, obj := obj, world := w, calls := [.delete obj], log := [] }

/-- The method `ControllerActionRunner.Error` (controller_actions.go:130). -/
def ControllerActionRunner.Error {σ ι : Type} (_i : ControllerActionRunner σ ι)
    (err : Option GoError) : Option GoError :=
  err

/-- The action `GenericCreateAction` with its `Run` (controller_actions.go:163). -/
def GenericCreateAction {σ ι : Type} (Ref : ι) (Msg : String) (SkipOwnerRef : Bool) :
    ControllerAction (ControllerActionRunner σ ι) σ :=
  { Run := fun runner s => ((Msg, (runner.Create Ref SkipOwnerRef s).err),
      (runner.Create Ref SkipOwnerRef s).world, (runner.Create Ref SkipOwnerRef s).log) }

/-- The action `GenericDeleteAction` with its `Run` (controller_actions.go:167). -/
def GenericDeleteAction {σ ι : Type} (Ref : ι) (Msg : String) :
    ControllerAction (ControllerActionRunner σ ι) σ :=
  { Run := fun runner s => ((Msg, (runner.Delete Ref s).err), (runner.Delete Ref s).world,
      (runner.Delete Ref s).log) }

/-- The action `GenericUpdateAction` with its `Run` (controller_actions.go:171). -/
def GenericUpdateAction {σ ι : Type} (Ref : ι) (Msg : String) (SkipOwnerRef : Bool) :
    ControllerAction (ControllerActionRunner σ ι) σ :=
  { Run := fun runner s => ((Msg, (runner.Update Ref SkipOwnerRef s).err),
      (runner.Update Ref SkipOwnerRef s).world, (runner.Update Ref SkipOwnerRef s).log) }

/-- The action `GenericErrorAction` with its `Run` (controller_actions.go:175). -/
def GenericErrorAction {σ ι : Type} (Ref : Option GoError) (Msg : String) :
    ControllerAction (ControllerActionRunner σ ι) σ :=
  { Run := fun runner s => ((Msg, runner.Error Ref), s, []) }

/-! ## reconciler_common.go: the cycle -/

/-- The interface `ResourceState` (reconciler_common.go:24): the observer `Read` and the
readiness probe `IsResourcesReady`, both supplied by the caller. -/
structure ResourceState (σ ι : Type) where
  Read : ι → σ → Option GoError × σ
  IsResourcesReady : ι → σ → (Bool × Option GoError) × σ

/-- The function `RunDesiredStateActions` (reconciler_common.go:85). The log of the outcome
is the log of `RunAll` followed by the log of `ManageError` or `ManageSuccess`. -/
def RunDesiredStateActions {σ ι : Type} (client : Client σ ι) (scheme : Scheme ι) (inst : ι)
    (conditions : List Condition) (currentState : ResourceState σ ι)
    (desiredState : DesiredResourceState (ControllerActionRunner σ ι) σ) (now : Nat) (s : σ) :
    Completion (ManageOutcome σ) :=
  let actionRunner := NewControllerActionRunner client scheme inst
  match RunAll actionRunner desiredState s with
  | (.panicked, _) => .panicked
  | (.returned (some err), t) =>
    (ManageError client inst conditions err now t.world).map
      fun out => { out with log := t.log ++ out.log }
  | (.returned none, t) =>
    match currentState.IsResourcesReady inst t.world with
    | ((_, some err), w) =>
      (ManageError client inst conditions err now w).map
        fun out => { out with log := t.log ++ out.log }
    | ((resourcesReady, none), w) =>
      let out := ManageSuccess client inst conditions resourcesReady now w
      .returned { out with log := t.log ++ out.log }

/-- The function `ReadCurrentState` (reconciler_common.go:101). -/
def ReadCurrentState {σ ι : Type} (client : Client σ ι) (inst : ι) (conditions : List Condition)
    (currentState : ResourceState σ ι) (now : Nat) (s : σ) : Completion (ManageOutcome σ) :=
  match currentState.Read inst s with
  | (some err, w) => ManageError client inst conditions err now w
  | (none, w) =>
    .returned { result := {}, err := none, conditions := conditions, world := w, log := [] }

/-- A failure `issue` with message `msg` is reported to the host through the condition and
the requeue delay only: the call returns, with a nil error, the result
`{RequeueAfter = 5 seconds, Requeue = true}` and an Available condition of status False
that carries the message, with reason Initializing for a `*ResourceNotReadyError` and
Failing for every other error. -/
def ReportedThroughCondition {σ : Type} (x : Completion (ManageOutcome σ)) (issue : GoError)
    (msg : String) : Prop :=
  ∃ out, x = .returned out ∧ out.err = none ∧
    out.result = { Requeue := true, RequeueAfter := 5 * 1000000000 } ∧
    ∃ c, FindStatusCondition out.conditions ConditionAvailable = some c ∧
      c.Status = ConditionFalse ∧ c.Message = msg ∧
      c.Reason = (if IsResourceNotReadyError (some issue) = true then ReasonInitializing
                  else ReasonFailing)

/-! ## readiness_checks.go -/

/-- The constant `ConditionStatusSuccess` (readiness_checks.go:19). -/
def ConditionStatusSuccess : String := "True"

/-- The condition type `appsv1.DeploymentReplicaFailure`. -/
def DeploymentReplicaFailure : String := "ReplicaFailure"

/-- The condition type `appsv1.DeploymentProgressing`. -/
def DeploymentProgressing : String := "Progressing"

/-- The type `appsv1.DeploymentCondition`, with the fields the package reads. -/
structure DeploymentCondition where
  Type_ : String
  Status : String
  Reason : String
deriving DecidableEq, Repr

/-- The type `appsv1.DeploymentStatus`, with the field the package reads. -/
structure DeploymentStatus where
  Conditions : List DeploymentCondition
deriving DecidableEq, Repr

/-- The type `appsv1.Deployment`. -/
structure Deployment where
  Status : DeploymentStatus
deriving DecidableEq, Repr

/-- The loop of `IsDeploymentReady` (readiness_checks.go:47-56) with the final return. -/
def IsDeploymentReady.loop (Sprintf : String → String) :
    List DeploymentCondition → Bool × Option GoError
  | [] => (true, none)
  | condition :: rest =>
    if condition.Type_ = DeploymentReplicaFailure then
      (false, some (Errorf Sprintf condition.Reason))
    else if condition.Type_ = DeploymentProgressing ∧ condition.Status ≠ ConditionStatusSuccess then
      (false, none)
    else IsDeploymentReady.loop Sprintf rest

/-- The function `IsDeploymentReady` (readiness_checks.go:42). -/
def IsDeploymentReady (Sprintf : String → String) : Option Deployment → Bool × Option GoError
  | none => (false, none)
  | some resource => IsDeploymentReady.loop Sprintf resource.Status.Conditions

/-- Whether a condition decides the verdict of `IsDeploymentReady`: it is of type
ReplicaFailure, or of type Progressing with a status different from "True". -/
def decidesVerdict (condition : DeploymentCondition) : Bool :=
  condition.Type_ == DeploymentReplicaFailure ||
    (condition.Type_ == DeploymentProgressing && condition.Status != ConditionStatusSuccess)

/-- The verdict by the first deciding condition, in list order: `(false, error)` built from
its Reason when it is a ReplicaFailure, `(false, nil)` when it is a Progressing condition,
`(true, nil)` when the list has no deciding condition. -/
def verdictOfFirstDeciding (Sprintf : String → String) (conditions : List DeploymentCondition) :
    Bool × Option GoError :=
  match conditions.find? decidesVerdict with
  | none => (true, none)
  | some condition =>
    if condition.Type_ = DeploymentReplicaFailure then
      (false, some (Errorf Sprintf condition.Reason))
    else (false, none)

/-- The type `corev1.EndpointAddress`. -/
structure EndpointAddress where
  IP : String
deriving DecidableEq, Repr

/-- The type `corev1.EndpointSubset`, with the field the package reads. -/
structure EndpointSubset where
  Addresses : List EndpointAddress
deriving DecidableEq, Repr

/-- The type `corev1.Endpoints`. -/
structure Endpoints where
  Subsets : List EndpointSubset
deriving DecidableEq, Repr

/-- The loop of `IsEndpointsReady` (readiness_checks.go:64-70) with the final return. -/
def IsEndpointsReady.loop : List EndpointSubset → Bool × Option GoError
  | [] => (false, none)
  | s :: rest => if s.Addresses.length > 0 then (true, none) else IsEndpointsReady.loop rest

/-- The function `IsEndpointsReady` (readiness_checks.go:59). -/
def IsEndpointsReady : Option Endpoints → Bool × Option GoError
  | none => (false, none)
  | some resource => IsEndpointsReady.loop resource.Subsets

/-- The type `batchv1.JobStatus`, with the `int32` counters the package reads. -/
structure JobStatus where
  Active : Int
  Succeeded : Int
  Failed : Int
deriving DecidableEq, Repr

/-- The type `batchv1.Job`. -/
structure Job where
  Namespace : String
  Name : String
  Status : JobStatus
deriving DecidableEq, Repr

/-- The function `IsJobReady` (readiness_checks.go:73); the message of its error is
`fmt.Sprintf("Job Failed, check log for %v/%v", namespace, name)`. -/
def IsJobReady : Option Job → Bool × Option GoError
  | none => (false, none)
  | some resource =>
    if resource.Status.Failed > 0 then
      (false, some (.fundamental
        ("Job Failed, check log for " ++ resource.Namespace ++ "/" ++ resource.Name)))
    else if resource.Status.Active > 0 ∨ resource.Status.Succeeded = 0 then
      (false, none)
    else if resource.Status.Succeeded > 0 then
      (true, none)
    else (false, none)

/-- The values an `interface{}` of an unstructured object holds: `nil`, the JSON scalars,
`[]interface{}` and `map[string]interface{}` (a map is its list of entries). -/
inductive Value where
  | null
  | bool (b : Bool)
  | int64 (n : Int)
  | float64 (bits : Nat)
  | string (s : String)
  | slice (items : List Value)
  | map (entries : List (String × Value))

/-- The type `unstructured.Unstructured`. -/
structure Unstructured where
  Object : List (String × Value)

/-- The comparison `x == "..."` of an `interface{}` read from a map (`none`: key absent)
with a string constant: true when the value is a string equal to the constant. -/
def ifaceEqString : Option Value → String → Bool
  | some (.string s), t => s == t
  | _, _ => false

/-- The function `unstructured.NestedFieldNoCopy` of the API machinery, from the value
reached so far. The text of its accessor error is abridged; callers test it against `nil`. -/
def NestedFieldNoCopy.loop : Value → List String → Value × Bool × Option GoError
  | val, [] => (val, true, none)
  | .null, _ :: _ => (.null, false, none)
  | .map m, field :: rest =>
    match m.lookup field with
    | some v => NestedFieldNoCopy.loop v rest
    | none => (.null, false, none)
  | _, _ :: _ => (.null, false, some (.fundamental "accessor error"))

/-- The function `unstructured.NestedFieldNoCopy`. -/
def NestedFieldNoCopy (obj : List (String × Value)) (fields : List String) :
    Value × Bool × Option GoError :=
  NestedFieldNoCopy.loop (.map obj) fields

/-- The function `unstructured.NestedSlice`: the slice at the path, whether it was found,
and an error when a value on the path has the wrong shape. -/
def NestedSlice (obj : List (String × Value)) (fields : List String) :
    List Value × Bool × Option GoError :=
  match NestedFieldNoCopy obj fields with
  | (val, found, err) =>
    if !found || err.isSome then ([], found, err)
    else
      match val with
      | .slice items => (items, true, none)
      | _ => ([], false, some (.fundamental "accessor error"))

/-- The loop of `IsServiceMeshControlPlaneReady` (readiness_checks.go:99-110). -/
def IsServiceMeshControlPlaneReady.loop : List Value → Bool × Option GoError
  | [] => (false, none)
  | .map condition :: rest =>
    if ifaceEqString (condition.lookup "type") "Ready" &&
        ifaceEqString (condition.lookup "reason") "ComponentsReady" then
      (true, none)
    else IsServiceMeshControlPlaneReady.loop rest
  | _ :: _ =>
    (false, some (.fundamental "Status Conditions for ServiceMeshControlPlane is not found"))

/-- The function `IsServiceMeshControlPlaneReady` (readiness_checks.go:89). -/
def IsServiceMeshControlPlaneReady : Option Unstructured → Bool × Option GoError
  | none => (false, none)
  | some resource =>
    match NestedSlice resource.Object ["status", "conditions"] with
    | (items, found, err) =>
      if !found || err.isSome then
        (false, some (.fundamental "Status Conditions for ServiceMeshControlPlane is not found"))
      else IsServiceMeshControlPlaneReady.loop items

/-- The loop of `IsServiceMeshMemberRollReady` (readiness_checks.go:123-134). -/
def IsServiceMeshMemberRollReady.loop : List Value → Bool × Option GoError
  | [] => (false, none)
  | .map condition :: rest =>
    if ifaceEqString (condition.lookup "type") "Ready" &&
        ifaceEqString (condition.lookup "status") ConditionStatusSuccess then
      (true, none)
    else IsServiceMeshMemberRollReady.loop rest
  | _ :: _ =>
    (false, some (.fundamental "Status Conditions for ServiceMeshMemberRoll is not found"))

/-- The function `IsServiceMeshMemberRollReady` (readiness_checks.go:113). -/
def IsServiceMeshMemberRollReady : Option Unstructured → Bool × Option GoError
  | none => (false, none)
  | some resource =>
    match NestedSlice resource.Object ["status", "conditions"] with
    | (items, found, err) =>
      if !found || err.isSome then
        (false, some (.fundamental "Status Conditions for ServiceMeshMemberRoll is not found"))
      else IsServiceMeshMemberRollReady.loop items

/-- The loop of `IsServiceMeshMemberReady` (readiness_checks.go:147-158). -/
def IsServiceMeshMemberReady.loop : List Value → Bool × Option GoError
  | [] => (false, none)
  | .map condition :: rest =>
    if ifaceEqString (condition.lookup "type") "Ready" &&
        ifaceEqString (condition.lookup "status") ConditionStatusSuccess then
      (true, none)
    else IsServiceMeshMemberReady.loop rest
  | _ :: _ =>
    (false, some (.fundamental "Status Conditions for ServiceMeshMember is not found"))

/-- The function `IsServiceMeshMemberReady` (readiness_checks.go:137). -/
def IsServiceMeshMemberReady : Option Unstructured → Bool × Option GoError
  | none => (false, none)
  | some resource =>
    match NestedSlice resource.Object ["status", "conditions"] with
    | (items, found, err) =>
      if !found || err.isSome then
        (false, some (.fundamental "Status Conditions for ServiceMeshMember is not found"))
      else IsServiceMeshMemberReady.loop items

/-! ## The state manager -/

/-- Modelled from the spec: the state manager behind `actions.GetStateManager()` (the
SharedStateStore of the spec), whose source file is not part of the sources: a mapping from
key to boolean availability; a key that was never written has no value. The one instance of
the process is passed explicitly. -/
structure StateManager where
  state : String → Option Bool

/-- Modelled from the spec: the method `GetState` of the state manager, which is not part of
the sources: the value stored under the key, `nil` (`none`) for an unseen key, never an
error. -/
def StateManager.GetState (sm : StateManager) (key : String) : Option Bool :=
  sm.state key

/-- Modelled from the spec: the method `SetState` of the state manager, which is not part of
the sources: it stores the value under the key and leaves every other key alone. -/
def StateManager.SetState (sm : StateManager) (key : String) (value : Bool) : StateManager :=
  { state := fun k => if k = key then some value else sm.state k }

/-- Modelled from the spec: the state manager as `GetStateManager` first constructs it, with
no key written. -/
def StateManager.empty : StateManager :=
  { state := fun _ => none }

/-! ## Sample data -/

/-- An action on a counter world: adds `n` and succeeds. -/
def bumpAction (n : Nat) : ControllerAction Unit Nat :=
  { Run := fun _ s => (("bump", none), s + n, []) }

/-- An action on a counter world: adds `n` and fails with `msg`. -/
def failAction (n : Nat) (msg : String) : ControllerAction Unit Nat :=
  { Run := fun _ s => (("fail", some (.fundamental msg)), s + n, []) }

/-- A deployment whose rollout stalled before a replica failure was recorded: a Progressing
condition with status False followed by a ReplicaFailure condition. -/
def stalledDeployment : Deployment :=
  { Status := { Conditions :=
      [ { Type_ := "Progressing", Status := "False", Reason := "ProgressDeadlineExceeded" },
        { Type_ := "ReplicaFailure", Status := "True", Reason := "FailedCreate" } ] } }

/-- The conditions of `stalledDeployment` in the opposite order. -/
def failedDeployment : Deployment :=
  { Status := { Conditions :=
      [ { Type_ := "ReplicaFailure", Status := "True", Reason := "FailedCreate" },
        { Type_ := "Progressing", Status := "False", Reason := "ProgressDeadlineExceeded" } ] } }

/-- A deployment with the given conditions. -/
def deploymentWith (conditions : List DeploymentCondition) : Deployment :=
  { Status := { Conditions := conditions } }

/-- A job with the given counters. -/
def sampleJob (active succeeded failed : Int) : Job :=
  { Namespace := "ns", Name := "job",
    Status := { Active := active, Succeeded := succeeded, Failed := failed } }

/-- The entries of a condition `{type, status, reason}` of an unstructured object. -/
def meshCondition (type status reason : String) : Value :=
  .map [("type", .string type), ("status", .string status), ("reason", .string reason)]

/-- An unstructured object whose `status.conditions` is the given list. -/
def meshResource (items : List Value) : Unstructured :=
  { Object := [("kind", .string "ServiceMeshControlPlane"),
               ("status", .map [("conditions", .slice items)])] }

/-- A condition list with one entry that is ready for all three service-mesh predicates. -/
def readyItems : List Value := [meshCondition "Ready" "True" "ComponentsReady"]

/-- A condition list whose first entry is ready for all three service-mesh predicates and
whose second entry is not a map. -/
def readyThenMalformedItems : List Value :=
  [meshCondition "Ready" "True" "ComponentsReady", .string "garbage"]

/-- A condition list with an entry that is not ready followed by an entry that is not a
map. -/
def pendingThenMalformedItems : List Value :=
  [meshCondition "Ready" "False" "Installing", .string "garbage"]

/-- An unstructured object without a `status` field. -/
def bareResource : Unstructured :=
  { Object := [("kind", .string "ServiceMeshMember")] }

/-- A client on a counter world: every store call adds one to the counter; creating or
updating an object without a name fails, a status update always succeeds. -/
def countingClient : Client Nat ObjectMeta :=
  { StatusUpdate := fun _ _ s => (none, s + 1)
    Create := fun o s =>
      (if o.Name = "" then some (.fundamental "name is required") else none, s + 1)
    Update := fun o s =>
      (if o.Name = "" then some (.fundamental "name is required") else none, s + 1)
    Delete := fun _ s => (none, s + 1) }

/-- A scheme whose `SetControllerReference` refuses an owner of another namespace and
otherwise leaves the resource as it is. -/
def sameNamespaceScheme : Scheme ObjectMeta :=
  { SetControllerReference := fun owner resource =>
      (if owner.Namespace = resource.Namespace then none
       else some (.fundamental "cross-namespace owner references are disallowed"), resource) }

/-- A runner over `countingClient` and `sameNamespaceScheme` managing `ns/owner`. -/
def sampleRunner : ControllerActionRunner Nat ObjectMeta :=
  NewControllerActionRunner countingClient sameNamespaceScheme
    { Namespace := "ns", Name := "owner" }

/-- A resource state whose probe reports a dependent that is not ready yet. -/
def notReadyState : ResourceState Nat ObjectMeta :=
  { Read := fun _ s => (none, s)
    IsResourcesReady := fun o s =>
      ((false, some (.resourceNotReady (some { PartialObject := some o }))), s) }

/-- A resource state whose probe returns a not-ready error built without its object,
`&ResourceNotReadyError{}`. -/
def emptyNotReadyState : ResourceState Nat ObjectMeta :=
  { Read := fun _ s => (none, s)
    IsResourcesReady := fun _ s =>
      ((false, some (.resourceNotReady (some { PartialObject := none }))), s) }

/-- A resource state whose observer fails with the given error. -/
def failingReadState (err : GoError) : ResourceState Nat ObjectMeta :=
  { Read := fun _ s => (some err, s)
    IsResourcesReady := fun _ s => ((true, none), s) }

/-- A client like `countingClient` whose status update fails. -/
def failingStatusClient : Client Nat ObjectMeta :=
  { countingClient with
    StatusUpdate := fun _ _ s => (some (.fundamental "conflict"), s + 1) }

/-- A resource state whose probe reports the given readiness without error. -/
def probedState (ready : Bool) : ResourceState Nat ObjectMeta :=
  { Read := fun _ s => (none, s)
    IsResourcesReady := fun _ s => ((ready, none), s) }

end Actions

namespace Autodetect

open Actions

/-! ## autodetect/auto_detect.go -/

/-- The type `schema.GroupVersion` of the API machinery. -/
structure GroupVersion where
  Group : String
  Version : String
deriving DecidableEq, Repr

/-- The type `schema.GroupVersionKind` of the API machinery. -/
structure GroupVersionKind where
  Group : String
  Version : String
  Kind : String
deriving DecidableEq, Repr

/-- The method `GroupVersion.String` of the API machinery: `Group + "/" + Version`, or the
version alone for the empty group. -/
def GroupVersion.String (gv : GroupVersion) : String :=
  if gv.Group.length > 0 then gv.Group ++ "/" ++ gv.Version else gv.Version

/-- The method `GroupVersionKind.GroupVersion` of the API machinery. -/
def GroupVersionKind.GroupVersion (gvk : GroupVersionKind) : GroupVersion :=
  { Group := gvk.Group, Version := gvk.Version }

/-- The method `GroupVersionKind.String` of the API machinery, the key of a kind in the state
manager: `Group + "/" + Version + ", Kind=" + Kind`. -/
def GroupVersionKind.String (gvk : GroupVersionKind) : String :=
  gvk.Group ++ "/" ++ gvk.Version ++ ", Kind=" ++ gvk.Kind

/-- The type `metav1.APIResource`, with the field the package reads. -/
structure APIResource where
  Kind : String
deriving DecidableEq, Repr

/-- The type `metav1.APIResourceList`, with the fields the package reads. -/
structure APIResourceList where
  GroupVersion : String
  APIResources : List APIResource
deriving DecidableEq, Repr

/-- The type `DetectConfig` (auto_detect.go:25); the delay is in nanoseconds. -/
structure DetectConfig where
  GroupVersionKinds : List GroupVersionKind
  Delay : Option Int := none
  ExitOnChange : Bool := false
deriving DecidableEq, Repr

/-- The function `IsResourceAvailable` (auto_detect.go:134): the assertion `.(bool)` in its
comma-ok form gives false for a value that is not a bool. -/
def IsResourceAvailable (stateManager : StateManager) (gvk : GroupVersionKind) : Bool :=
  match stateManager.GetState gvk.String with
  | some available => available
  | none => false

/-- The innermost loop of `DetectCapabilities` (auto_detect.go:121-126) over the resources
of one list, from the current value of `exists`. -/
def DetectCapabilities.resources (gvk : GroupVersionKind) : Bool → List APIResource → Bool
  | found, [] => found
  | found, r :: rest =>
    if r.Kind = gvk.Kind then true else DetectCapabilities.resources gvk found rest

/-- The loop of `DetectCapabilities` over the resource lists (auto_detect.go:119-128), from
the current value of `exists`. -/
def DetectCapabilities.lists (gvk : GroupVersionKind) : Bool → List APIResourceList → Bool
  | found, [] => found
  | found, apiList :: rest =>
    if apiList.GroupVersion = gvk.GroupVersion.String then
      DetectCapabilities.lists gvk (DetectCapabilities.resources gvk found apiList.APIResources)
        rest
    else DetectCapabilities.lists gvk found rest

/-- The loop of `DetectCapabilities` over the watched kinds (auto_detect.go:117-130). -/
def DetectCapabilities.loop (apiLists : List APIResourceList) :
    StateManager → List GroupVersionKind → StateManager
  | stateManager, [] => stateManager
  | stateManager, gvk :: rest =>
    DetectCapabilities.loop apiLists
      (stateManager.SetState gvk.String (DetectCapabilities.lists gvk false apiLists)) rest

/-- The method `Background.DetectCapabilities` (auto_detect.go:109). `discovery` is what
`ServerGroupsAndResources()` returns: the resource lists and the error. The result is the
state manager after the call and the log. -/
def DetectCapabilities (config : DetectConfig)
    (discovery : List APIResourceList × Option GoError) (stateManager : StateManager) :
    StateManager × List LogRecord :=
  match discovery with
  | (_, some err) => (stateManager, [.error err "Failed to get API List"])
  | (apiLists, none) =>
    (DetectCapabilities.loop apiLists stateManager config.GroupVersionKinds, [])

/-- How a tick of the watcher ends: `os.Exit(code)` or a normal return. -/
inductive TickOutcome where
  | exited (code : Nat)
  | completed
deriving DecidableEq, Repr

/-- What a tick leaves behind: how it ended, the state manager and the log. -/
structure TickResult where
  outcome : TickOutcome
  store : StateManager
  log : List LogRecord

/-- The first loop of `autoDetectCapabilities` (auto_detect.go:78-80), filling the map
`previousState` (a missing key is `none`). -/
def autoDetectCapabilities.snapshot (stateManager : StateManager) :
    (String → Option Bool) → List GroupVersionKind → (String → Option Bool)
  | previousState, [] => previousState
  | previousState, gvk :: rest =>
    autoDetectCapabilities.snapshot stateManager
      (fun k => if k = gvk.String then some (IsResourceAvailable stateManager gvk)
        else previousState k) rest

/-- The second loop of `autoDetectCapabilities` (auto_detect.go:84-105); reading a missing
key of `previousState` gives false. -/
def autoDetectCapabilities.loop (exitOnChange : Bool) (previousState : String → Option Bool)
    (stateManager : StateManager) : List GroupVersionKind → List LogRecord →
    TickOutcome × List LogRecord
  | [], log => (.completed, log)
  | gvk :: rest, log =>
    let before := (previousState gvk.String).getD false
    let after := IsResourceAvailable stateManager gvk
    if !before && after then
      if exitOnChange then
        (.exited 1, log ++ [.info (gvk.String ++
          " is deployed in cluster. Restarting operator to enable all APIs ....")])
      else
        autoDetectCapabilities.loop exitOnChange previousState stateManager rest
          (log ++ [.info (gvk.String ++ " is deployed in cluster")])
    else if !before && !after then
      autoDetectCapabilities.loop exitOnChange previousState stateManager rest
        (log ++ [.info (gvk.String ++ " is not deployed in cluster")])
    else if before && !after then
      if exitOnChange then
        (.exited 1, log ++ [.info (gvk.String ++
          " is undeployed. Restarting operator to disable some APIs ....")])
      else
        autoDetectCapabilities.loop exitOnChange previousState stateManager rest
          (log ++ [.info (gvk.String ++ " is undeployed in cluster")])
    else autoDetectCapabilities.loop exitOnChange previousState stateManager rest log

/-- The method `Background.autoDetectCapabilities` (auto_detect.go:76): one tick. -/
def autoDetectCapabilities (config : DetectConfig)
    (discovery : List APIResourceList × Option GoError) (stateManager : StateManager) :
    TickResult :=
  let previousState :=
    autoDetectCapabilities.snapshot stateManager (fun _ => none) config.GroupVersionKinds
  let detected := DetectCapabilities config discovery stateManager
  let checked := autoDetectCapabilities.loop config.ExitOnChange previousState detected.1
    config.GroupVersionKinds detected.2
  { outcome := checked.1, store := detected.1, log := checked.2 }

/-! ## Sample data -/

/-- The kind `group/version, Kind=kind` of the package test. -/
def testKind (kind : String) : GroupVersionKind :=
  { Group := "group", Version := "version", Kind := kind }

/-- The configuration of the package test: the watched kinds `kind1` and `kind2`. -/
def testConfig (exitOnChange : Bool) : DetectConfig :=
  { GroupVersionKinds := [testKind "kind1", testKind "kind2"], ExitOnChange := exitOnChange }

/-- A discovery catalog with one list for `group/version` holding the given kinds. -/
def testCatalog (kinds : List String) : List APIResourceList :=
  [{ GroupVersion := "group/version", APIResources := kinds.map fun k => { Kind := k } }]

/-- A kind whose key is `g/v, Kind=a, Kind=b`. -/
def collidingKindA : GroupVersionKind :=
  { Group := "g", Version := "v", Kind := "a, Kind=b" }

/-- Another kind whose key is `g/v, Kind=a, Kind=b`. -/
def collidingKindB : GroupVersionKind :=
  { Group := "g", Version := "v, Kind=a", Kind := "b" }

/-- A discovery catalog that lists `collidingKindA` and nothing else. -/
def collidingCatalog : List APIResourceList :=
  [{ GroupVersion := "g/v", APIResources := [{ Kind := "a, Kind=b" }] }]

end Autodetect

namespace Actions

/-! ## Theorems -/

/-- The loop of `RunAll` on a sequence without nil entries whose actions all succeed. -/
theorem RunAll_loop_all_ok {ρ σ : Type} (i : ρ) (as : List (ControllerAction ρ σ)) :
    ∀ (n : Nat) (t : RunTrace σ),
      (∀ j, j < as.length → outcomeAt i as t.world j = none) →
      (RunAll.loop i n (as.map some) t).1 = .returned none ∧
      (RunAll.loop i n (as.map some) t).2.invoked = t.invoked ++ List.range' n as.length ∧
      (RunAll.loop i n (as.map some) t).2.world = worldAfter i as t.world := by
  induction as with
  | nil => intro n t _; simp [RunAll.loop, worldAfter]
  | cons a rest ih =>
    intro n t h
    have h0 := h 0 (by simp)
    simp only [outcomeAt, List.getElem?_cons_zero, List.take_zero, worldAfter] at h0
    have hrest : ∀ j, j < rest.length → outcomeAt i rest (a.Run i t.world).2.1 j = none := by
      intro j hj
      have := h (j + 1) (by simpa using hj)
      simpa [outcomeAt, worldAfter] using this
    rcases hrun : a.Run i t.world with ⟨⟨msg, e⟩, w, written⟩
    rw [hrun] at h0 hrest
    simp only at h0
    subst h0
    simp only [List.map_cons, RunAll.loop, hrun, worldAfter]
    obtain ⟨h1, h2, h3⟩ := ih (n + 1)
      { world := w, invoked := t.invoked ++ [n],
        log := t.log ++ written ++ [.runInfo n "SUCCESS" msg] } hrest
    refine ⟨h1, ?_, h3⟩
    rw [h2]
    simp [List.range'_succ]

/-- The loop of `RunAll` on a sequence without nil entries whose first failing action is
the `k`-th. -/
theorem RunAll_loop_first_error {ρ σ : Type} (i : ρ) (as : List (ControllerAction ρ σ)) :
    ∀ (n : Nat) (t : RunTrace σ) (k : Nat) (e : GoError),
      (∀ j, j < k → outcomeAt i as t.world j = none) →
      outcomeAt i as t.world k = some e →
      (RunAll.loop i n (as.map some) t).1 = .returned (some e) ∧
      (RunAll.loop i n (as.map some) t).2.invoked = t.invoked ++ List.range' n (k + 1) ∧
      (RunAll.loop i n (as.map some) t).2.world = worldAfter i (as.take (k + 1)) t.world := by
  induction as with
  | nil => intro n t k e _ hk; simp [outcomeAt] at hk
  | cons a rest ih =>
    intro n t k e hlt hk
    rcases hrun : a.Run i t.world with ⟨⟨msg, r⟩, w, written⟩
    cases k with
    | zero =>
      simp only [outcomeAt, List.getElem?_cons_zero, List.take_zero, worldAfter, hrun] at hk
      subst hk
      simp [RunAll.loop, hrun, worldAfter]
    | succ k =>
      have h0 := hlt 0 (by omega)
      simp only [outcomeAt, List.getElem?_cons_zero, List.take_zero, worldAfter, hrun] at h0
      subst h0
      have hrest : ∀ j, j < k → outcomeAt i rest w j = none := by
        intro j hj
        have := hlt (j + 1) (by omega)
        simpa [outcomeAt, worldAfter, hrun] using this
      have hk2 : outcomeAt i rest w k = some e := by
        simpa [outcomeAt, worldAfter, hrun] using hk
      simp only [List.map_cons, RunAll.loop, hrun, worldAfter, List.take_succ_cons]
      obtain ⟨h1, h2, h3⟩ := ih (n + 1)
        { world := w, invoked := t.invoked ++ [n],
          log := t.log ++ written ++ [.runInfo n "SUCCESS" msg] }
        k e hrest hk2
      refine ⟨h1, ?_, h3⟩
      rw [h2]
      simp [List.range'_succ]

/-- C1 (amended): for every desired-state sequence without nil entries, `RunAll` invokes the
actions one at a time in list order, each once, up to and including the first action whose
`Run` returns an error, and returns exactly that error; no later action is invoked. When no
action returns an error, every action is invoked exactly once, in order, and `RunAll`
returns nil. -/
theorem RunAll_fail_fast {ρ σ : Type} (i : ρ) (as : List (ControllerAction ρ σ)) (s : σ) :
    (∀ (k : Nat) (e : GoError),
        (∀ j, j < k → outcomeAt i as s j = none) → outcomeAt i as s k = some e →
        (RunAll i (as.map some) s).1 = .returned (some e) ∧
        (RunAll i (as.map some) s).2.invoked = List.range (k + 1) ∧
        (RunAll i (as.map some) s).2.world = worldAfter i (as.take (k + 1)) s) ∧
    ((∀ j, j < as.length → outcomeAt i as s j = none) →
        (RunAll i (as.map some) s).1 = .returned none ∧
        (RunAll i (as.map some) s).2.invoked = List.range as.length ∧
        (RunAll i (as.map some) s).2.world = worldAfter i as s) := by
  constructor
  · intro k e hlt hk
    have h := RunAll_loop_first_error i as 0 { world := s, invoked := [], log := [] } k e hlt hk
    simpa [RunAll, List.range_eq_range'] using h
  · intro hall
    have h := RunAll_loop_all_ok i as 0 { world := s, invoked := [], log := [] } hall
    simpa [RunAll, List.range_eq_range'] using h

/-- A three-action sequence whose middle action fails: the first two actions are invoked,
the error of the second is returned and the third never runs; and a sequence whose actions
all succeed runs to the end and returns nil. -/
theorem RunAll_fail_fast_witness :
    ((RunAll () ([bumpAction 1, failAction 10 "boom", bumpAction 100].map some) 0).1
        = .returned (some (.fundamental "boom")) ∧
      (RunAll () ([bumpAction 1, failAction 10 "boom", bumpAction 100].map some) 0).2.invoked
        = [0, 1] ∧
      (RunAll () ([bumpAction 1, failAction 10 "boom", bumpAction 100].map some) 0).2.world
        = 11) ∧
    ((RunAll () ([bumpAction 1, bumpAction 10].map some) 0).1 = .returned none ∧
      (RunAll () ([bumpAction 1, bumpAction 10].map some) 0).2.invoked = [0, 1] ∧
      (RunAll () ([bumpAction 1, bumpAction 10].map some) 0).2.world = 11) := by
  constructor
  · have h := (RunAll_fail_fast () [bumpAction 1, failAction 10 "boom", bumpAction 100] 0).1
      1 (.fundamental "boom")
      (by intro j hj; obtain rfl : j = 0 := by omega
          rfl)
      rfl
    simpa [worldAfter, bumpAction, failAction, List.range_succ] using h
  · have h := (RunAll_fail_fast () [bumpAction 1, bumpAction 10] 0).2
      (by intro j hj
          have hj2 : j < 2 := by simpa using hj
          rcases (by omega : j = 0 ∨ j = 1) with rfl | rfl <;> rfl)
    simpa [worldAfter, bumpAction, List.range_succ] using h

/-- C1 (as stated) fails: on a desired state with a nil entry and no failing action, `RunAll`
invokes the first action and then dereferences nil; it returns neither nil nor an error. -/
theorem RunAll_nil_entry_not_returned :
    (RunAll () ([some (bumpAction 1), none] : DesiredResourceState Unit Nat) 0).1 = .panicked ∧
    (RunAll () ([some (bumpAction 1), none] : DesiredResourceState Unit Nat) 0).2.invoked = [0] ∧
    ∀ r, (RunAll () ([some (bumpAction 1), none] : DesiredResourceState Unit Nat) 0).1
      ≠ .returned r := by
  refine ⟨rfl, rfl, ?_⟩
  intro r h
  have h2 : (RunAll () ([some (bumpAction 1), none] : DesiredResourceState Unit Nat) 0).1
      = .panicked := rfl
  rw [h2] at h
  cases h

/-- After `SetStatusCondition`, the condition found under the type of the new condition
carries the status, reason and message of the new condition. -/
theorem FindStatusCondition_SetStatusCondition (now : Nat) (l : List Condition)
    (c : Condition) :
    ∃ c', FindStatusCondition (SetStatusCondition now l c) c.Type_ = some c' ∧
      c'.Type_ = c.Type_ ∧ c'.Status = c.Status ∧ c'.Reason = c.Reason ∧
      c'.Message = c.Message := by
  induction l with
  | nil =>
    exact ⟨{ c with LastTransitionTime := now },
      by simp [SetStatusCondition, FindStatusCondition], rfl, rfl, rfl, rfl⟩
  | cons d rest ih =>
    by_cases h : d.Type_ = c.Type_
    · refine ⟨{ d with
          Status := c.Status
          Reason := c.Reason
          Message := c.Message
          LastTransitionTime := if d.Status ≠ c.Status then now else d.LastTransitionTime },
        ?_, h, rfl, rfl, rfl⟩
      simp [SetStatusCondition, FindStatusCondition, h]
    · obtain ⟨c', h1, h2⟩ := ih
      exact ⟨c', by simp [SetStatusCondition, FindStatusCondition, h, h1], h2⟩

/-- After `SetStatusCondition`, the conditions of every other type are found as before. -/
theorem FindStatusCondition_SetStatusCondition_other (now : Nat) (l : List Condition)
    (c : Condition) (t : String) (ht : t ≠ c.Type_) :
    FindStatusCondition (SetStatusCondition now l c) t = FindStatusCondition l t := by
  induction l with
  | nil => simp [SetStatusCondition, FindStatusCondition, Ne.symm ht]
  | cons d rest ih =>
    by_cases h : d.Type_ = c.Type_
    · have hd : d.Type_ ≠ t := fun e => ht (e.symm.trans h)
      simp [SetStatusCondition, FindStatusCondition, h, Ne.symm ht]
    · by_cases h2 : d.Type_ = t
      · rw [SetStatusCondition, if_neg h]
        simp [FindStatusCondition, h2]
      · rw [SetStatusCondition, if_neg h]
        simp [FindStatusCondition, h2, ih]

/-- When `issue.Error()` returns, `ManageError` reports the issue through the condition and
the short requeue, whatever the status update does. -/
theorem ManageError_reported {σ ι : Type} (client : Client σ ι) (inst : ι)
    (statusConditions : List Condition) (issue : GoError) (now : Nat) (s : σ) (msg : String)
    (hmsg : issue.Error = .returned msg) :
    ReportedThroughCondition (ManageError client inst statusConditions issue now s) issue
      msg := by
  unfold ReportedThroughCondition
  cases hr : IsResourceNotReadyError (some issue)
  · obtain ⟨c, h1, _, h3, h4, h5⟩ := FindStatusCondition_SetStatusCondition now
      statusConditions
      { Type_ := ConditionAvailable, Status := ConditionFalse, Message := msg,
        Reason := ReasonFailing, LastTransitionTime := 0 }
    simp only [ManageError, hmsg, hr, Bool.false_eq_true, if_false]
    exact ⟨_, rfl, rfl, by simp [RequeueDelayError, Second], c, h1, h3, h5, h4⟩
  · obtain ⟨c, h1, _, h3, h4, h5⟩ := FindStatusCondition_SetStatusCondition now
      statusConditions
      { Type_ := ConditionAvailable, Status := ConditionFalse, Message := msg,
        Reason := ReasonInitializing, LastTransitionTime := 0 }
    simp only [ManageError, hmsg, hr, if_true]
    exact ⟨_, rfl, rfl, by simp [RequeueDelayError, Second], c, h1, h3, h5, h4⟩

/-- When `issue.Error()` panics, so does `ManageError`. -/
theorem ManageError_panicked {σ ι : Type} (client : Client σ ι) (inst : ι)
    (statusConditions : List Condition) (issue : GoError) (now : Nat) (s : σ)
    (hmsg : issue.Error = .panicked) :
    ManageError client inst statusConditions issue now s = .panicked := by
  simp only [ManageError, hmsg]

/-- C2 (amended): for every non-nil issue whose `Error()` returns, every instance, every prior
condition list, and whether the status update succeeds or fails, `ManageError` returns the
result `{RequeueAfter = 5 seconds, Requeue = true}` together with a nil error; on an issue
whose `Error()` panics `ManageError` panics. -/
theorem ManageError_result {σ ι : Type} (client : Client σ ι) (inst : ι)
    (statusConditions : List Condition) (issue : GoError) (now : Nat) (s : σ) :
    (∀ msg, issue.Error = .returned msg →
      ∃ out, ManageError client inst statusConditions issue now s = .returned out ∧
        out.result = { Requeue := true, RequeueAfter := 5 * 1000000000 } ∧
        out.err = none) ∧
    (issue.Error = .panicked →
      ManageError client inst statusConditions issue now s = .panicked) := by
  refine ⟨fun msg hmsg => ?_, ManageError_panicked client inst statusConditions issue now s⟩
  obtain ⟨out, h1, h2, h3, _⟩ :=
    ManageError_reported client inst statusConditions issue now s msg hmsg
  exact ⟨out, h1, h3, h2⟩

/-- An apply failure with a status update that fails, and a not-ready error with a status
update that succeeds: both give the 5 second requeue and a nil error. -/
theorem ManageError_result_witness :
    (∃ out, ManageError failingStatusClient { Namespace := "ns", Name := "owner" } []
        (.fundamental "boom") 0 0 = .returned out ∧
      out.result = { Requeue := true, RequeueAfter := 5 * 1000000000 } ∧ out.err = none) ∧
    (∃ out, ManageError countingClient { Namespace := "ns", Name := "owner" } []
        (.resourceNotReady (some { PartialObject := some { Namespace := "ns", Name := "db" } }))
        0 0 = .returned out ∧
      out.result = { Requeue := true, RequeueAfter := 5 * 1000000000 } ∧ out.err = none) :=
  ⟨(ManageError_result failingStatusClient { Namespace := "ns", Name := "owner" } []
      (.fundamental "boom") 0 0).1 "boom" rfl,
   (ManageError_result countingClient { Namespace := "ns", Name := "owner" } []
      (.resourceNotReady (some { PartialObject := some { Namespace := "ns", Name := "db" } }))
      0 0).1 "ns/db is not ready" rfl⟩

/-- C2 (as stated) fails: on the non-nil issue `&ResourceNotReadyError{}`, whose
`PartialObject` is nil, `ManageError` panics in `issue.Error()` and returns no result. -/
theorem ManageError_empty_not_ready_error_panics :
    ManageError countingClient { Namespace := "ns", Name := "owner" } []
        (.resourceNotReady (some { PartialObject := none })) 0 0 = .panicked ∧
    ∀ out, ManageError countingClient { Namespace := "ns", Name := "owner" } []
        (.resourceNotReady (some { PartialObject := none })) 0 0 ≠ .returned out := by
  have h : ManageError countingClient { Namespace := "ns", Name := "owner" } []
      (.resourceNotReady (some { PartialObject := none })) 0 0 = .panicked := rfl
  refine ⟨h, fun out hout => ?_⟩
  rw [h] at hout
  cases hout

/-- C3: the result of `ManageSuccess` is decided by the outcome of the status update alone:
for both values of `resourcesReady` it is `RequeueAfter = 60 minutes` (no immediate requeue)
when the update of the conditions it set succeeds and `{RequeueAfter = 5 seconds,
Requeue = true}` when that update fails, with a nil error either way. What differs between
the two values is the Available condition it sets (True and Reconciling when ready, False
and Initializing when not); conditions of other types are left as they were, and when the
status update answers both lists alike the result, error, world and log are the same. -/
theorem ManageSuccess_result {σ ι : Type} (client : Client σ ι) (inst : ι)
    (statusConditions : List Condition) (now : Nat) (s : σ) :
    (∀ resourcesReady,
      (ManageSuccess client inst statusConditions resourcesReady now s).result
          = (if (client.StatusUpdate inst
                  (ManageSuccess client inst statusConditions resourcesReady now s).conditions
                  s).1 = none
             then { Requeue := false, RequeueAfter := 60 * (60 * 1000000000) }
             else { Requeue := true, RequeueAfter := 5 * 1000000000 }) ∧
      (ManageSuccess client inst statusConditions resourcesReady now s).err = none ∧
      (ManageSuccess client inst statusConditions resourcesReady now s).world
          = (client.StatusUpdate inst
              (ManageSuccess client inst statusConditions resourcesReady now s).conditions
              s).2 ∧
      (∃ c, FindStatusCondition
            (ManageSuccess client inst statusConditions resourcesReady now s).conditions
            ConditionAvailable = some c ∧
          c.Status = (if resourcesReady = true then ConditionTrue else ConditionFalse) ∧
          c.Reason = (if resourcesReady = true then ReasonReconciling
                      else ReasonInitializing)) ∧
      (∀ t, t ≠ ConditionAvailable →
        FindStatusCondition
            (ManageSuccess client inst statusConditions resourcesReady now s).conditions t
          = FindStatusCondition statusConditions t)) ∧
    (client.StatusUpdate inst (ManageSuccess client inst statusConditions true now s).conditions s
        = client.StatusUpdate inst
            (ManageSuccess client inst statusConditions false now s).conditions s →
      (ManageSuccess client inst statusConditions true now s).result
          = (ManageSuccess client inst statusConditions false now s).result ∧
      (ManageSuccess client inst statusConditions true now s).err
          = (ManageSuccess client inst statusConditions false now s).err ∧
      (ManageSuccess client inst statusConditions true now s).world
          = (ManageSuccess client inst statusConditions false now s).world ∧
      (ManageSuccess client inst statusConditions true now s).log
          = (ManageSuccess client inst statusConditions false now s).log) := by
  have hconds : ∀ ready : Bool,
      (ManageSuccess client inst statusConditions ready now s).conditions
        = SetStatusCondition now statusConditions
            (if ready = true then
              { Type_ := ConditionAvailable, Status := ConditionTrue,
                Reason := ReasonReconciling, Message := "All resource are ready",
                LastTransitionTime := 0 }
             else
              { Type_ := ConditionAvailable, Status := ConditionFalse,
                Reason := ReasonInitializing,
                Message := "One or more resources are not ready",
                LastTransitionTime := 0 }) := by
    intro ready
    simp only [ManageSuccess]
    split <;> rfl
  have hshape : ∀ ready : Bool,
      ManageSuccess client inst statusConditions ready now s
        = (match client.StatusUpdate inst
              (ManageSuccess client inst statusConditions ready now s).conditions s with
           | (some e, w) =>
             { result := { RequeueAfter := RequeueDelayError, Requeue := true }, err := none,
               conditions := (ManageSuccess client inst statusConditions ready now s).conditions,
               world := w, log := [.error e "unable to update status"] }
           | (none, w) =>
             { result := { RequeueAfter := RequeueDelay }, err := none,
               conditions := (ManageSuccess client inst statusConditions ready now s).conditions,
               world := w, log := [] }) := by
    intro ready
    rw [hconds ready]
    simp only [ManageSuccess]
  constructor
  · intro ready
    refine ⟨?_, ?_, ?_, ?_, ?_⟩
    · simp only [ManageSuccess]
      split <;> rename_i e w h <;> simp [h, RequeueDelay, RequeueDelayError, Minute, Second]
    · simp only [ManageSuccess]
      split <;> rfl
    · simp only [ManageSuccess]
      split <;> rename_i e w h <;> simp [h]
    · rw [hconds ready]
      cases ready
      · obtain ⟨c, h1, _, h3, h4, _⟩ := FindStatusCondition_SetStatusCondition now
          statusConditions
          { Type_ := ConditionAvailable, Status := ConditionFalse,
            Reason := ReasonInitializing, Message := "One or more resources are not ready",
            LastTransitionTime := 0 }
        exact ⟨c, by simpa using h1, by simpa using h3, by simpa using h4⟩
      · obtain ⟨c, h1, _, h3, h4, _⟩ := FindStatusCondition_SetStatusCondition now
          statusConditions
          { Type_ := ConditionAvailable, Status := ConditionTrue,
            Reason := ReasonReconciling, Message := "All resource are ready",
            LastTransitionTime := 0 }
        exact ⟨c, by simpa using h1, by simpa using h3, by simpa using h4⟩
    · intro t ht
      rw [hconds ready]
      apply FindStatusCondition_SetStatusCondition_other
      cases ready <;> simpa using ht
  · intro hsame
    rw [hshape true, hshape false, hsame]
    rcases client.StatusUpdate inst
      (ManageSuccess client inst statusConditions false now s).conditions s with ⟨e, w⟩
    cases e <;> exact ⟨rfl, rfl, rfl, rfl⟩

/-- With a client whose status update answers every list alike, the two values of
`resourcesReady` give the same result, error, world and log. -/
theorem ManageSuccess_result_witness :
    (ManageSuccess countingClient { Namespace := "ns", Name := "owner" } [] true 0 0).result
        = (ManageSuccess countingClient { Namespace := "ns", Name := "owner" } [] false 0
            0).result ∧
    (ManageSuccess countingClient { Namespace := "ns", Name := "owner" } [] true 0 0).err
        = (ManageSuccess countingClient { Namespace := "ns", Name := "owner" } [] false 0
            0).err ∧
    (ManageSuccess countingClient { Namespace := "ns", Name := "owner" } [] true 0 0).world
        = (ManageSuccess countingClient { Namespace := "ns", Name := "owner" } [] false 0
            0).world ∧
    (ManageSuccess countingClient { Namespace := "ns", Name := "owner" } [] true 0 0).log
        = (ManageSuccess countingClient { Namespace := "ns", Name := "owner" } [] false 0
            0).log :=
  (ManageSuccess_result countingClient { Namespace := "ns", Name := "owner" } [] 0 0).2 rfl

/-- C4 (amended): for every non-nil issue whose `Error()` returns, `ManageError` sets the
condition of type Available to status False with the message `issue.Error()`; its reason is
Initializing exactly when the issue is a `*ResourceNotReadyError` (when
`IsResourceNotReadyError(issue)` holds) and Failing for every other issue. -/
theorem ManageError_condition {σ ι : Type} (client : Client σ ι) (inst : ι)
    (statusConditions : List Condition) (issue : GoError) (now : Nat) (s : σ) (msg : String)
    (hmsg : issue.Error = .returned msg) :
    ∃ out c, ManageError client inst statusConditions issue now s = .returned out ∧
      FindStatusCondition out.conditions ConditionAvailable = some c ∧
      c.Status = ConditionFalse ∧ c.Message = msg ∧
      c.Reason = (if IsResourceNotReadyError (some issue) = true then ReasonInitializing
                  else ReasonFailing) ∧
      (c.Reason = ReasonInitializing ↔ IsResourceNotReadyError (some issue) = true) ∧
      (c.Reason = ReasonFailing ↔ IsResourceNotReadyError (some issue) = false) ∧
      (IsResourceNotReadyError (some issue) = true ↔ ∃ e, issue = .resourceNotReady e) := by
  obtain ⟨out, h1, _, _, c, hc, hs, hm, hr⟩ :=
    ManageError_reported client inst statusConditions issue now s msg hmsg
  refine ⟨out, c, h1, hc, hs, hm, hr, ?_, ?_, ?_⟩
  · rw [hr]
    cases IsResourceNotReadyError (some issue) <;>
      simp [ReasonInitializing, ReasonFailing]
  · rw [hr]
    cases IsResourceNotReadyError (some issue) <;>
      simp [ReasonInitializing, ReasonFailing]
  · cases issue <;> simp [IsResourceNotReadyError]

/-- A not-ready error for `ns/db` sets Available to False with reason Initializing and the
message of the error; an error of another type sets reason Failing. -/
theorem ManageError_condition_witness :
    (∃ out c, ManageError countingClient { Namespace := "ns", Name := "owner" } []
        (.resourceNotReady (some { PartialObject := some { Namespace := "ns", Name := "db" } }))
        0 0 = .returned out ∧
      FindStatusCondition out.conditions ConditionAvailable = some c ∧
      c.Status = "False" ∧ c.Message = "ns/db is not ready" ∧ c.Reason = "Initializing") ∧
    (∃ out c, ManageError countingClient { Namespace := "ns", Name := "owner" } []
        (.fundamental "boom") 0 0 = .returned out ∧
      FindStatusCondition out.conditions ConditionAvailable = some c ∧
      c.Status = "False" ∧ c.Message = "boom" ∧ c.Reason = "Failing") := by
  constructor
  · obtain ⟨out, c, h1, h2, h3, h4, h5, _⟩ :=
      ManageError_condition countingClient { Namespace := "ns", Name := "owner" } []
        (.resourceNotReady (some { PartialObject := some { Namespace := "ns", Name := "db" } }))
        0 0 "ns/db is not ready" rfl
    exact ⟨out, c, h1, h2, h3, h4, by simpa [IsResourceNotReadyError] using h5⟩
  · obtain ⟨out, c, h1, h2, h3, h4, h5, _⟩ :=
      ManageError_condition countingClient { Namespace := "ns", Name := "owner" } []
        (.fundamental "boom") 0 0 "boom" rfl
    exact ⟨out, c, h1, h2, h3, h4, by simpa [IsResourceNotReadyError] using h5⟩

/-- C4 (as stated) fails: on a nil `*ResourceNotReadyError` inside a non-nil error value,
which `IsResourceNotReadyError` recognises, `ManageError` panics in `issue.Error()` before
any condition is set. -/
theorem ManageError_nil_not_ready_error_panics :
    IsResourceNotReadyError (some (.resourceNotReady none)) = true ∧
    ManageError countingClient { Namespace := "ns", Name := "owner" } []
        (.resourceNotReady none) 0 0 = .panicked ∧
    ∀ out, ManageError countingClient { Namespace := "ns", Name := "owner" } []
        (.resourceNotReady none) 0 0 ≠ .returned out := by
  have h : ManageError countingClient { Namespace := "ns", Name := "owner" } []
      (.resourceNotReady none) 0 0 = .panicked := rfl
  refine ⟨rfl, h, fun out hout => ?_⟩
  rw [h] at hout
  cases hout

/-- C5 (the code at `resourcesReady = true`): the Available condition `ManageSuccess` sets has
status True and reason Reconciling, and its message is the literal of reconciler_common.go:64,
"All resource are ready", which differs from "All resources are ready". -/
theorem ManageSuccess_ready_message {σ ι : Type} (client : Client σ ι) (inst : ι)
    (statusConditions : List Condition) (now : Nat) (s : σ) :
    ∃ c, FindStatusCondition (ManageSuccess client inst statusConditions true now s).conditions
          ConditionAvailable = some c ∧
      c.Status = ConditionTrue ∧ c.Reason = ReasonReconciling ∧
      c.Message = "All resource are ready" ∧ c.Message ≠ "All resources are ready" := by
  obtain ⟨c, h1, _, h3, h4, h5⟩ := FindStatusCondition_SetStatusCondition now statusConditions
    { Type_ := ConditionAvailable, Status := ConditionTrue, Reason := ReasonReconciling,
      Message := "All resource are ready", LastTransitionTime := 0 }
  refine ⟨c, ?_, h3, h4, h5, ?_⟩
  · simp only [ManageSuccess]
    split <;> simpa using h1
  · rw [h5]; decide

/-- C6: each of the six readiness predicates returns `(false, nil)` on a nil resource. -/
theorem readiness_nil (Sprintf : String → String) :
    IsDeploymentReady Sprintf none = (false, none) ∧
    IsEndpointsReady none = (false, none) ∧
    IsJobReady none = (false, none) ∧
    IsServiceMeshControlPlaneReady none = (false, none) ∧
    IsServiceMeshMemberRollReady none = (false, none) ∧
    IsServiceMeshMemberReady none = (false, none) :=
  ⟨rfl, rfl, rfl, rfl, rfl, rfl⟩

/-- C7 (the code at the failing input): on a deployment whose condition list holds a
Progressing condition with status False before a ReplicaFailure condition,
`IsDeploymentReady` returns `(false, nil)` although a ReplicaFailure condition is present;
with the same two conditions in the opposite order it returns the error built from the
Reason. -/
theorem IsDeploymentReady_progressing_hides_failure (Sprintf : String → String) :
    (∃ c ∈ stalledDeployment.Status.Conditions, c.Type_ = DeploymentReplicaFailure) ∧
    IsDeploymentReady Sprintf (some stalledDeployment) = (false, none) ∧
    IsDeploymentReady Sprintf (some failedDeployment)
      = (false, some (Errorf Sprintf "FailedCreate")) := by
  refine ⟨⟨_, List.mem_cons_of_mem _ (List.mem_singleton.2 rfl), rfl⟩, ?_, ?_⟩
  · simp [IsDeploymentReady, IsDeploymentReady.loop, stalledDeployment,
      DeploymentReplicaFailure, DeploymentProgressing, ConditionStatusSuccess]
  · simp [IsDeploymentReady, IsDeploymentReady.loop, failedDeployment,
      DeploymentReplicaFailure]

/-- C8: for every non-nil Job, `IsJobReady` returns an error exactly when `Failed > 0` (and then
is not ready); when `Failed` is not `> 0` it returns `(false, nil)` if `Active > 0` or
`Succeeded == 0` and `(true, nil)` if `Active` is not `> 0` and `Succeeded > 0`; so it is
ready exactly when `Failed ≤ 0`, `Active ≤ 0` and `Succeeded > 0`. -/
theorem IsJobReady_spec (j : Job) :
    ((∃ e, (IsJobReady (some j)).2 = some e) ↔ 0 < j.Status.Failed) ∧
    (0 < j.Status.Failed → (IsJobReady (some j)).1 = false) ∧
    (¬ 0 < j.Status.Failed → (0 < j.Status.Active ∨ j.Status.Succeeded = 0) →
      IsJobReady (some j) = (false, none)) ∧
    (¬ 0 < j.Status.Failed → ¬ 0 < j.Status.Active → 0 < j.Status.Succeeded →
      IsJobReady (some j) = (true, none)) ∧
    ((IsJobReady (some j)).1 = true ↔
      j.Status.Failed ≤ 0 ∧ j.Status.Active ≤ 0 ∧ 0 < j.Status.Succeeded) := by
  simp only [IsJobReady, gt_iff_lt]
  by_cases hf : 0 < j.Status.Failed
  · simp [hf]
  · by_cases ha : 0 < j.Status.Active
    · simp [hf, ha]
    · by_cases hs0 : j.Status.Succeeded = 0
      · simp [hf, ha, hs0]
      · by_cases hs : 0 < j.Status.Succeeded
        · simp [hf, ha, hs0, hs]
          omega
        · simp [hf, ha, hs0, hs]

/-- The three jobs of the spec: `{failed: 1}` gives an error and not ready,
`{active: 1, succeeded: 0}` gives `(false, nil)`, `{succeeded: 1}` gives `(true, nil)`. -/
theorem IsJobReady_spec_witness :
    (IsJobReady (some (sampleJob 0 0 1))).1 = false ∧
    IsJobReady (some (sampleJob 1 0 0)) = (false, none) ∧
    IsJobReady (some (sampleJob 0 1 0)) = (true, none) :=
  ⟨(IsJobReady_spec (sampleJob 0 0 1)).2.1 (by decide),
   (IsJobReady_spec (sampleJob 1 0 0)).2.2.1 (by decide) (Or.inl (by decide)),
   (IsJobReady_spec (sampleJob 0 1 0)).2.2.2.1 (by decide) (by decide) (by decide)⟩

/-- The loop of `IsEndpointsReady` never fails and finds exactly a subset with an address. -/
theorem IsEndpointsReady_loop_spec (subsets : List EndpointSubset) :
    (IsEndpointsReady.loop subsets).2 = none ∧
    ((IsEndpointsReady.loop subsets).1 = true ↔ ∃ s ∈ subsets, 1 ≤ s.Addresses.length) := by
  induction subsets with
  | nil => simp [IsEndpointsReady.loop]
  | cons s rest ih =>
    by_cases h : 0 < s.Addresses.length
    · simp only [IsEndpointsReady.loop, gt_iff_lt, h, if_true, true_and, true_iff]
      exact ⟨s, List.mem_cons_self _ _, h⟩
    · simp only [IsEndpointsReady.loop, gt_iff_lt, h, if_false, ih.1, true_and, ih.2]
      simp only [List.mem_cons, exists_eq_or_imp]
      constructor
      · intro hx; exact Or.inr hx
      · rintro (hx | hx)
        · omega
        · exact hx

/-- C9: for every non-nil Endpoints resource, `IsEndpointsReady` returns ready = true exactly
when at least one of its subsets has at least one address, and it never returns an error. -/
theorem IsEndpointsReady_spec (resource : Endpoints) :
    ((IsEndpointsReady (some resource)).1 = true ↔
      ∃ s ∈ resource.Subsets, 1 ≤ s.Addresses.length) ∧
    (IsEndpointsReady (some resource)).2 = none :=
  ⟨(IsEndpointsReady_loop_spec resource.Subsets).2, (IsEndpointsReady_loop_spec resource.Subsets).1⟩

/-- The comparison of an interface value with a string constant succeeds exactly on that
string. -/
theorem ifaceEqString_iff (v : Option Value) (t : String) :
    ifaceEqString v t = true ↔ v = some (.string t) := by
  cases v with
  | none => simp [ifaceEqString]
  | some x => cases x <;> simp [ifaceEqString]

/-- On a present `status.conditions` list, `NestedSlice` returns the list. -/
theorem NestedSlice_status_conditions (obj st : List (String × Value)) (items : List Value)
    (hst : obj.lookup "status" = some (.map st))
    (hc : st.lookup "conditions" = some (.slice items)) :
    NestedSlice obj ["status", "conditions"] = (items, true, none) := by
  simp [NestedSlice, NestedFieldNoCopy, NestedFieldNoCopy.loop, hst, hc]

/-- The loop of `IsServiceMeshControlPlaneReady` on a list of maps. -/
theorem IsServiceMeshControlPlaneReady_loop_spec (items : List Value)
    (hmaps : ∀ item ∈ items, ∃ m, item = .map m) :
    (IsServiceMeshControlPlaneReady.loop items).2 = none ∧
    ((IsServiceMeshControlPlaneReady.loop items).1 = true ↔
      ∃ m, Value.map m ∈ items ∧ m.lookup "type" = some (.string "Ready") ∧
        m.lookup "reason" = some (.string "ComponentsReady")) := by
  induction items with
  | nil => simp [IsServiceMeshControlPlaneReady.loop]
  | cons item rest ih =>
    obtain ⟨m, rfl⟩ := hmaps item (List.mem_cons_self _ _)
    have ih := ih (fun x hx => hmaps x (List.mem_cons_of_mem _ hx))
    by_cases h : ifaceEqString (m.lookup "type") "Ready" = true ∧
        ifaceEqString (m.lookup "reason") "ComponentsReady" = true
    · have h2 := h
      rw [ifaceEqString_iff, ifaceEqString_iff] at h2
      simp only [IsServiceMeshControlPlaneReady.loop, Bool.and_eq_true, h, and_self, if_true,
        true_and, true_iff]
      exact ⟨m, List.mem_cons_self _ _, h2⟩
    · simp only [IsServiceMeshControlPlaneReady.loop, Bool.and_eq_true, h, if_false, ih.1,
        true_and, ih.2]
      constructor
      · rintro ⟨m2, hm, ht⟩; exact ⟨m2, List.mem_cons_of_mem _ hm, ht⟩
      · rintro ⟨m2, hm, ht⟩
        rcases List.mem_cons.1 hm with heq | hm
        · injection heq with heq
          subst heq
          exact absurd (by rw [ifaceEqString_iff, ifaceEqString_iff]; exact ht) h
        · exact ⟨m2, hm, ht⟩

/-- The loop of `IsServiceMeshMemberRollReady` on a list of maps. -/
theorem IsServiceMeshMemberRollReady_loop_spec (items : List Value)
    (hmaps : ∀ item ∈ items, ∃ m, item = .map m) :
    (IsServiceMeshMemberRollReady.loop items).2 = none ∧
    ((IsServiceMeshMemberRollReady.loop items).1 = true ↔
      ∃ m, Value.map m ∈ items ∧ m.lookup "type" = some (.string "Ready") ∧
        m.lookup "status" = some (.string "True")) := by
  induction items with
  | nil => simp [IsServiceMeshMemberRollReady.loop]
  | cons item rest ih =>
    obtain ⟨m, rfl⟩ := hmaps item (List.mem_cons_self _ _)
    have ih := ih (fun x hx => hmaps x (List.mem_cons_of_mem _ hx))
    by_cases h : ifaceEqString (m.lookup "type") "Ready" = true ∧
        ifaceEqString (m.lookup "status") "True" = true
    · have h2 := h
      rw [ifaceEqString_iff, ifaceEqString_iff] at h2
      simp only [IsServiceMeshMemberRollReady.loop, ConditionStatusSuccess, Bool.and_eq_true, h,
        and_self, if_true, true_and, true_iff]
      exact ⟨m, List.mem_cons_self _ _, h2⟩
    · simp only [IsServiceMeshMemberRollReady.loop, ConditionStatusSuccess, Bool.and_eq_true, h,
        if_false, ih.1, true_and, ih.2]
      constructor
      · rintro ⟨m2, hm, ht⟩; exact ⟨m2, List.mem_cons_of_mem _ hm, ht⟩
      · rintro ⟨m2, hm, ht⟩
        rcases List.mem_cons.1 hm with heq | hm
        · injection heq with heq
          subst heq
          exact absurd (by rw [ifaceEqString_iff, ifaceEqString_iff]; exact ht) h
        · exact ⟨m2, hm, ht⟩

/-- The loop of `IsServiceMeshMemberReady` on a list of maps. -/
theorem IsServiceMeshMemberReady_loop_spec (items : List Value)
    (hmaps : ∀ item ∈ items, ∃ m, item = .map m) :
    (IsServiceMeshMemberReady.loop items).2 = none ∧
    ((IsServiceMeshMemberReady.loop items).1 = true ↔
      ∃ m, Value.map m ∈ items ∧ m.lookup "type" = some (.string "Ready") ∧
        m.lookup "status" = some (.string "True")) := by
  induction items with
  | nil => simp [IsServiceMeshMemberReady.loop]
  | cons item rest ih =>
    obtain ⟨m, rfl⟩ := hmaps item (List.mem_cons_self _ _)
    have ih := ih (fun x hx => hmaps x (List.mem_cons_of_mem _ hx))
    by_cases h : ifaceEqString (m.lookup "type") "Ready" = true ∧
        ifaceEqString (m.lookup "status") "True" = true
    · have h2 := h
      rw [ifaceEqString_iff, ifaceEqString_iff] at h2
      simp only [IsServiceMeshMemberReady.loop, ConditionStatusSuccess, Bool.and_eq_true, h,
        and_self, if_true, true_and, true_iff]
      exact ⟨m, List.mem_cons_self _ _, h2⟩
    · simp only [IsServiceMeshMemberReady.loop, ConditionStatusSuccess, Bool.and_eq_true, h,
        if_false, ih.1, true_and, ih.2]
      constructor
      · rintro ⟨m2, hm, ht⟩; exact ⟨m2, List.mem_cons_of_mem _ hm, ht⟩
      · rintro ⟨m2, hm, ht⟩
        rcases List.mem_cons.1 hm with heq | hm
        · injection heq with heq
          subst heq
          exact absurd (by rw [ifaceEqString_iff, ifaceEqString_iff]; exact ht) h
        · exact ⟨m2, hm, ht⟩

/-- C10: for every non-nil resource whose `status.conditions` is a list in which every entry
is a map, each service-mesh predicate returns no error and is ready exactly when some entry
matches its discriminator: `type == "Ready"` and `reason == "ComponentsReady"` for the
control plane; `type == "Ready"` and `status ==` the string `"True"` for the member roll and
the member. -/
theorem serviceMesh_ready_iff (resource : Unstructured) (st : List (String × Value))
    (items : List Value)
    (hst : resource.Object.lookup "status" = some (.map st))
    (hc : st.lookup "conditions" = some (.slice items))
    (hmaps : ∀ item ∈ items, ∃ m, item = .map m) :
    ((IsServiceMeshControlPlaneReady (some resource)).2 = none ∧
      ((IsServiceMeshControlPlaneReady (some resource)).1 = true ↔
        ∃ m, Value.map m ∈ items ∧ m.lookup "type" = some (.string "Ready") ∧
          m.lookup "reason" = some (.string "ComponentsReady"))) ∧
    ((IsServiceMeshMemberRollReady (some resource)).2 = none ∧
      ((IsServiceMeshMemberRollReady (some resource)).1 = true ↔
        ∃ m, Value.map m ∈ items ∧ m.lookup "type" = some (.string "Ready") ∧
          m.lookup "status" = some (.string "True"))) ∧
    ((IsServiceMeshMemberReady (some resource)).2 = none ∧
      ((IsServiceMeshMemberReady (some resource)).1 = true ↔
        ∃ m, Value.map m ∈ items ∧ m.lookup "type" = some (.string "Ready") ∧
          m.lookup "status" = some (.string "True"))) := by
  have hn := NestedSlice_status_conditions resource.Object st items hst hc
  refine ⟨?_, ?_, ?_⟩
  · simpa [IsServiceMeshControlPlaneReady, hn]
      using IsServiceMeshControlPlaneReady_loop_spec items hmaps
  · simpa [IsServiceMeshMemberRollReady, hn]
      using IsServiceMeshMemberRollReady_loop_spec items hmaps
  · simpa [IsServiceMeshMemberReady, hn]
      using IsServiceMeshMemberReady_loop_spec items hmaps

/-- A resource whose `status.conditions` holds the single entry
`{type: Ready, status: True, reason: ComponentsReady}` is ready, without error, for each of
the three service-mesh predicates. -/
theorem serviceMesh_ready_iff_witness :
    ((meshResource readyItems).Object.lookup "status"
        = some (.map [("conditions", .slice readyItems)]) ∧
      (∀ item ∈ readyItems, ∃ m, item = .map m)) ∧
    IsServiceMeshControlPlaneReady (some (meshResource readyItems)) = (true, none) ∧
    IsServiceMeshMemberRollReady (some (meshResource readyItems)) = (true, none) ∧
    IsServiceMeshMemberReady (some (meshResource readyItems)) = (true, none) := by
  have hst : (meshResource readyItems).Object.lookup "status"
      = some (.map [("conditions", .slice readyItems)]) := by
    simp [meshResource, List.lookup]
  have hc : ([("conditions", Value.slice readyItems)] : List (String × Value)).lookup "conditions"
      = some (.slice readyItems) := by
    simp [List.lookup]
  have hmaps : ∀ item ∈ readyItems, ∃ m, item = .map m := by
    intro item hitem
    simp only [readyItems, List.mem_singleton] at hitem
    exact ⟨_, hitem⟩
  have hmem : Value.map [("type", .string "Ready"), ("status", .string "True"),
      ("reason", .string "ComponentsReady")] ∈ readyItems := by
    simp [readyItems, meshCondition]
  have h := serviceMesh_ready_iff (meshResource readyItems)
    [("conditions", .slice readyItems)] readyItems hst hc hmaps
  refine ⟨⟨hst, hmaps⟩, ?_, ?_, ?_⟩
  · exact Prod.ext (h.1.2.2 ⟨_, hmem, by simp [List.lookup], by simp [List.lookup]⟩) h.1.1
  · exact Prod.ext (h.2.1.2.2 ⟨_, hmem, by simp [List.lookup], by simp [List.lookup]⟩) h.2.1.1
  · exact Prod.ext (h.2.2.2.2 ⟨_, hmem, by simp [List.lookup], by simp [List.lookup]⟩) h.2.2.1

/-- When `status.conditions` is missing or is not a list, `NestedSlice` reports not found or
an error. -/
theorem NestedSlice_not_list (obj : List (String × Value))
    (hno : ¬ ∃ st items, obj.lookup "status" = some (.map st) ∧
      st.lookup "conditions" = some (.slice items)) :
    (!(NestedSlice obj ["status", "conditions"]).2.1 ||
      (NestedSlice obj ["status", "conditions"]).2.2.isSome) = true := by
  simp only [NestedSlice, NestedFieldNoCopy, NestedFieldNoCopy.loop]
  cases hst : obj.lookup "status" with
  | none => simp
  | some v =>
    cases v with
    | map st =>
      cases hc : st.lookup "conditions" with
      | none => simp [NestedFieldNoCopy.loop, hc]
      | some v2 =>
        cases v2 with
        | slice items => exact absurd ⟨st, items, hst, hc⟩ hno
        | _ => simp [NestedFieldNoCopy.loop, hc]
    | _ => simp [NestedFieldNoCopy.loop]

/-- C11: for every non-nil resource whose `status.conditions` is missing or is not a list,
each of the three service-mesh predicates returns `(false, non-nil error)`; for a resource
whose `status.conditions` is a list of maps with no matching entry the result is
`(false, nil)`. -/
theorem serviceMesh_conditions_not_found (resource : Unstructured) :
    ((¬ ∃ st items, resource.Object.lookup "status" = some (.map st) ∧
        st.lookup "conditions" = some (.slice items)) →
      (∃ e, IsServiceMeshControlPlaneReady (some resource) = (false, some e)) ∧
      (∃ e, IsServiceMeshMemberRollReady (some resource) = (false, some e)) ∧
      (∃ e, IsServiceMeshMemberReady (some resource) = (false, some e))) ∧
    (∀ st items, resource.Object.lookup "status" = some (.map st) →
      st.lookup "conditions" = some (.slice items) →
      (∀ item ∈ items, ∃ m, item = .map m) →
      ((¬ ∃ m, Value.map m ∈ items ∧ m.lookup "type" = some (.string "Ready") ∧
          m.lookup "reason" = some (.string "ComponentsReady")) →
        IsServiceMeshControlPlaneReady (some resource) = (false, none)) ∧
      ((¬ ∃ m, Value.map m ∈ items ∧ m.lookup "type" = some (.string "Ready") ∧
          m.lookup "status" = some (.string "True")) →
        IsServiceMeshMemberRollReady (some resource) = (false, none) ∧
        IsServiceMeshMemberReady (some resource) = (false, none))) := by
  constructor
  · intro hno
    have h := NestedSlice_not_list resource.Object hno
    simp only [IsServiceMeshControlPlaneReady, IsServiceMeshMemberRollReady,
      IsServiceMeshMemberReady]
    rcases hn : NestedSlice resource.Object ["status", "conditions"] with ⟨items, found, err⟩
    rw [hn] at h
    simp only at h
    simp [h]
  · intro st items hst hc hmaps
    have hn := NestedSlice_status_conditions resource.Object st items hst hc
    have h1 := IsServiceMeshControlPlaneReady_loop_spec items hmaps
    have h2 := IsServiceMeshMemberRollReady_loop_spec items hmaps
    have h3 := IsServiceMeshMemberReady_loop_spec items hmaps
    refine ⟨fun hnone => ?_, fun hnone => ⟨?_, ?_⟩⟩
    · have hf : (IsServiceMeshControlPlaneReady.loop items).1 = false := by
        rw [← Bool.not_eq_true, h1.2]; exact hnone
      simpa [IsServiceMeshControlPlaneReady, hn] using Prod.ext hf h1.1
    · have hf : (IsServiceMeshMemberRollReady.loop items).1 = false := by
        rw [← Bool.not_eq_true, h2.2]; exact hnone
      simpa [IsServiceMeshMemberRollReady, hn] using Prod.ext hf h2.1
    · have hf : (IsServiceMeshMemberReady.loop items).1 = false := by
        rw [← Bool.not_eq_true, h3.2]; exact hnone
      simpa [IsServiceMeshMemberReady, hn] using Prod.ext hf h3.1

/-- A resource without a `status` field gives `(false, error)`; a resource whose conditions
are the empty list gives `(false, nil)`. -/
theorem serviceMesh_conditions_not_found_witness :
    ((∃ e, IsServiceMeshControlPlaneReady (some bareResource) = (false, some e)) ∧
      (∃ e, IsServiceMeshMemberRollReady (some bareResource) = (false, some e)) ∧
      (∃ e, IsServiceMeshMemberReady (some bareResource) = (false, some e))) ∧
    IsServiceMeshControlPlaneReady (some (meshResource [])) = (false, none) ∧
    IsServiceMeshMemberRollReady (some (meshResource [])) = (false, none) ∧
    IsServiceMeshMemberReady (some (meshResource [])) = (false, none) := by
  refine ⟨(serviceMesh_conditions_not_found bareResource).1 ?_, ?_⟩
  · rintro ⟨st, items, hst, _⟩
    simp [bareResource, List.lookup] at hst
  · have h := (serviceMesh_conditions_not_found (meshResource [])).2
      [("conditions", .slice [])] []
      (by simp [meshResource, List.lookup]) (by simp [List.lookup]) (by simp)
    exact ⟨h.1 (by simp), (h.2 (by simp)).1, (h.2 (by simp)).2⟩

/-- The loop of `IsServiceMeshControlPlaneReady` on a list of maps followed by an entry that is not a map:
a matching map wins, otherwise the malformed entry gives the error. -/
theorem IsServiceMeshControlPlaneReady_loop_malformed (pre post : List Value) (bad : Value)
    (hpre : ∀ item ∈ pre, ∃ m, item = .map m) (hbad : ∀ m, bad ≠ .map m) :
    ((∃ m, Value.map m ∈ pre ∧ m.lookup "type" = some (.string "Ready") ∧
        m.lookup "reason" = some (.string "ComponentsReady")) →
      IsServiceMeshControlPlaneReady.loop (pre ++ bad :: post) = (true, none)) ∧
    ((¬ ∃ m, Value.map m ∈ pre ∧ m.lookup "type" = some (.string "Ready") ∧
        m.lookup "reason" = some (.string "ComponentsReady")) →
      IsServiceMeshControlPlaneReady.loop (pre ++ bad :: post)
        = (false, some (.fundamental "Status Conditions for ServiceMeshControlPlane is not found"))) := by
  induction pre with
  | nil =>
    refine ⟨fun h => ?_, fun _ => ?_⟩
    · obtain ⟨m, hm, _⟩ := h
      cases hm
    · cases bad with
      | map m => exact absurd rfl (hbad m)
      | _ => simp [IsServiceMeshControlPlaneReady.loop]
  | cons item rest ih =>
    obtain ⟨m, rfl⟩ := hpre item (List.mem_cons_self _ _)
    have ih := ih (fun x hx => hpre x (List.mem_cons_of_mem _ hx))
    by_cases h : ifaceEqString (m.lookup "type") "Ready" = true ∧
        ifaceEqString (m.lookup "reason") "ComponentsReady" = true
    · have h2 := h
      rw [ifaceEqString_iff, ifaceEqString_iff] at h2
      refine ⟨fun _ => ?_, fun hno => ?_⟩
      · simp [IsServiceMeshControlPlaneReady.loop, h]
      · exact absurd ⟨m, List.mem_cons_self _ _, h2⟩ hno
    · have hstep : IsServiceMeshControlPlaneReady.loop (Value.map m :: rest ++ bad :: post)
          = IsServiceMeshControlPlaneReady.loop (rest ++ bad :: post) := by
        simp only [List.cons_append, IsServiceMeshControlPlaneReady.loop, Bool.and_eq_true, h,
          if_false]
        rfl
      rw [hstep]
      refine ⟨fun hyes => ih.1 ?_, fun hno => ih.2 ?_⟩
      · obtain ⟨m2, hm, ht⟩ := hyes
        rcases List.mem_cons.1 hm with heq | hm
        · injection heq with heq
          subst heq
          exact absurd (by rw [ifaceEqString_iff, ifaceEqString_iff]; exact ht) h
        · exact ⟨m2, hm, ht⟩
      · rintro ⟨m2, hm, ht⟩
        exact hno ⟨m2, List.mem_cons_of_mem _ hm, ht⟩

/-- The loop of `IsServiceMeshMemberRollReady` on a list of maps followed by an entry that is not a map:
a matching map wins, otherwise the malformed entry gives the error. -/
theorem IsServiceMeshMemberRollReady_loop_malformed (pre post : List Value) (bad : Value)
    (hpre : ∀ item ∈ pre, ∃ m, item = .map m) (hbad : ∀ m, bad ≠ .map m) :
    ((∃ m, Value.map m ∈ pre ∧ m.lookup "type" = some (.string "Ready") ∧
        m.lookup "status" = some (.string "True")) →
      IsServiceMeshMemberRollReady.loop (pre ++ bad :: post) = (true, none)) ∧
    ((¬ ∃ m, Value.map m ∈ pre ∧ m.lookup "type" = some (.string "Ready") ∧
        m.lookup "status" = some (.string "True")) →
      IsServiceMeshMemberRollReady.loop (pre ++ bad :: post)
        = (false, some (.fundamental "Status Conditions for ServiceMeshMemberRoll is not found"))) := by
  induction pre with
  | nil =>
    refine ⟨fun h => ?_, fun _ => ?_⟩
    · obtain ⟨m, hm, _⟩ := h
      cases hm
    · cases bad with
      | map m => exact absurd rfl (hbad m)
      | _ => simp [IsServiceMeshMemberRollReady.loop]
  | cons item rest ih =>
    obtain ⟨m, rfl⟩ := hpre item (List.mem_cons_self _ _)
    have ih := ih (fun x hx => hpre x (List.mem_cons_of_mem _ hx))
    by_cases h : ifaceEqString (m.lookup "type") "Ready" = true ∧
        ifaceEqString (m.lookup "status") "True" = true
    · have h2 := h
      rw [ifaceEqString_iff, ifaceEqString_iff] at h2
      refine ⟨fun _ => ?_, fun hno => ?_⟩
      · simp [IsServiceMeshMemberRollReady.loop, ConditionStatusSuccess, h]
      · exact absurd ⟨m, List.mem_cons_self _ _, h2⟩ hno
    · have hstep : IsServiceMeshMemberRollReady.loop (Value.map m :: rest ++ bad :: post)
          = IsServiceMeshMemberRollReady.loop (rest ++ bad :: post) := by
        simp only [List.cons_append, IsServiceMeshMemberRollReady.loop, ConditionStatusSuccess, Bool.and_eq_true, h,
          if_false]
        rfl
      rw [hstep]
      refine ⟨fun hyes => ih.1 ?_, fun hno => ih.2 ?_⟩
      · obtain ⟨m2, hm, ht⟩ := hyes
        rcases List.mem_cons.1 hm with heq | hm
        · injection heq with heq
          subst heq
          exact absurd (by rw [ifaceEqString_iff, ifaceEqString_iff]; exact ht) h
        · exact ⟨m2, hm, ht⟩
      · rintro ⟨m2, hm, ht⟩
        exact hno ⟨m2, List.mem_cons_of_mem _ hm, ht⟩

/-- The loop of `IsServiceMeshMemberReady` on a list of maps followed by an entry that is not a map:
a matching map wins, otherwise the malformed entry gives the error. -/
theorem IsServiceMeshMemberReady_loop_malformed (pre post : List Value) (bad : Value)
    (hpre : ∀ item ∈ pre, ∃ m, item = .map m) (hbad : ∀ m, bad ≠ .map m) :
    ((∃ m, Value.map m ∈ pre ∧ m.lookup "type" = some (.string "Ready") ∧
        m.lookup "status" = some (.string "True")) →
      IsServiceMeshMemberReady.loop (pre ++ bad :: post) = (true, none)) ∧
    ((¬ ∃ m, Value.map m ∈ pre ∧ m.lookup "type" = some (.string "Ready") ∧
        m.lookup "status" = some (.string "True")) →
      IsServiceMeshMemberReady.loop (pre ++ bad :: post)
        = (false, some (.fundamental "Status Conditions for ServiceMeshMember is not found"))) := by
  induction pre with
  | nil =>
    refine ⟨fun h => ?_, fun _ => ?_⟩
    · obtain ⟨m, hm, _⟩ := h
      cases hm
    · cases bad with
      | map m => exact absurd rfl (hbad m)
      | _ => simp [IsServiceMeshMemberReady.loop]
  | cons item rest ih =>
    obtain ⟨m, rfl⟩ := hpre item (List.mem_cons_self _ _)
    have ih := ih (fun x hx => hpre x (List.mem_cons_of_mem _ hx))
    by_cases h : ifaceEqString (m.lookup "type") "Ready" = true ∧
        ifaceEqString (m.lookup "status") "True" = true
    · have h2 := h
      rw [ifaceEqString_iff, ifaceEqString_iff] at h2
      refine ⟨fun _ => ?_, fun hno => ?_⟩
      · simp [IsServiceMeshMemberReady.loop, ConditionStatusSuccess, h]
      · exact absurd ⟨m, List.mem_cons_self _ _, h2⟩ hno
    · have hstep : IsServiceMeshMemberReady.loop (Value.map m :: rest ++ bad :: post)
          = IsServiceMeshMemberReady.loop (rest ++ bad :: post) := by
        simp only [List.cons_append, IsServiceMeshMemberReady.loop, ConditionStatusSuccess, Bool.and_eq_true, h,
          if_false]
        rfl
      rw [hstep]
      refine ⟨fun hyes => ih.1 ?_, fun hno => ih.2 ?_⟩
      · obtain ⟨m2, hm, ht⟩ := hyes
        rcases List.mem_cons.1 hm with heq | hm
        · injection heq with heq
          subst heq
          exact absurd (by rw [ifaceEqString_iff, ifaceEqString_iff]; exact ht) h
        · exact ⟨m2, hm, ht⟩
      · rintro ⟨m2, hm, ht⟩
        exact hno ⟨m2, List.mem_cons_of_mem _ hm, ht⟩

/-- C20 (amended): for every non-nil resource whose `status.conditions` list holds an entry
that is not a map, each service-mesh predicate returns `(false, non-nil error)` when no entry
before the first malformed one matches its discriminator; when an entry before it matches,
the predicate returns `(true, nil)`. -/
theorem serviceMesh_malformed_entry (resource : Unstructured) (st : List (String × Value))
    (pre post : List Value) (bad : Value)
    (hst : resource.Object.lookup "status" = some (.map st))
    (hc : st.lookup "conditions" = some (.slice (pre ++ bad :: post)))
    (hpre : ∀ item ∈ pre, ∃ m, item = .map m) (hbad : ∀ m, bad ≠ .map m) :
    (((¬ ∃ m, Value.map m ∈ pre ∧ m.lookup "type" = some (.string "Ready") ∧
          m.lookup "reason" = some (.string "ComponentsReady")) →
        ∃ e, IsServiceMeshControlPlaneReady (some resource) = (false, some e)) ∧
      ((∃ m, Value.map m ∈ pre ∧ m.lookup "type" = some (.string "Ready") ∧
          m.lookup "reason" = some (.string "ComponentsReady")) →
        IsServiceMeshControlPlaneReady (some resource) = (true, none))) ∧
    (((¬ ∃ m, Value.map m ∈ pre ∧ m.lookup "type" = some (.string "Ready") ∧
          m.lookup "status" = some (.string "True")) →
        (∃ e, IsServiceMeshMemberRollReady (some resource) = (false, some e)) ∧
        (∃ e, IsServiceMeshMemberReady (some resource) = (false, some e))) ∧
      ((∃ m, Value.map m ∈ pre ∧ m.lookup "type" = some (.string "Ready") ∧
          m.lookup "status" = some (.string "True")) →
        IsServiceMeshMemberRollReady (some resource) = (true, none) ∧
        IsServiceMeshMemberReady (some resource) = (true, none))) := by
  have hn := NestedSlice_status_conditions resource.Object st _ hst hc
  have h1 := IsServiceMeshControlPlaneReady_loop_malformed pre post bad hpre hbad
  have h2 := IsServiceMeshMemberRollReady_loop_malformed pre post bad hpre hbad
  have h3 := IsServiceMeshMemberReady_loop_malformed pre post bad hpre hbad
  have e1 : IsServiceMeshControlPlaneReady (some resource)
      = IsServiceMeshControlPlaneReady.loop (pre ++ bad :: post) := by
    simp [IsServiceMeshControlPlaneReady, hn]
  have e2 : IsServiceMeshMemberRollReady (some resource)
      = IsServiceMeshMemberRollReady.loop (pre ++ bad :: post) := by
    simp [IsServiceMeshMemberRollReady, hn]
  have e3 : IsServiceMeshMemberReady (some resource)
      = IsServiceMeshMemberReady.loop (pre ++ bad :: post) := by
    simp [IsServiceMeshMemberReady, hn]
  exact ⟨⟨fun hno => ⟨_, e1.trans (h1.2 hno)⟩, fun hyes => e1.trans (h1.1 hyes)⟩,
    ⟨fun hno => ⟨⟨_, e2.trans (h2.2 hno)⟩, ⟨_, e3.trans (h3.2 hno)⟩⟩,
      fun hyes => ⟨e2.trans (h2.1 hyes), e3.trans (h3.1 hyes)⟩⟩⟩

/-- A condition list with an entry that is not ready followed by a string: each predicate
returns `(false, error)`. -/
theorem serviceMesh_malformed_entry_witness :
    (∃ e, IsServiceMeshControlPlaneReady (some (meshResource pendingThenMalformedItems))
      = (false, some e)) ∧
    (∃ e, IsServiceMeshMemberRollReady (some (meshResource pendingThenMalformedItems))
      = (false, some e)) ∧
    (∃ e, IsServiceMeshMemberReady (some (meshResource pendingThenMalformedItems))
      = (false, some e)) := by
  have h := serviceMesh_malformed_entry (meshResource pendingThenMalformedItems)
    [("conditions", .slice pendingThenMalformedItems)]
    [meshCondition "Ready" "False" "Installing"] [] (.string "garbage")
    (by simp [meshResource, List.lookup])
    (by simp [List.lookup, pendingThenMalformedItems])
    (by intro item hitem
        simp only [List.mem_singleton] at hitem
        exact ⟨_, hitem⟩)
    (by intro m hm; cases hm)
  refine ⟨h.1.1 ?_, (h.2.1 ?_).1, (h.2.1 ?_).2⟩
  · rintro ⟨m, hm, _, hr⟩
    simp only [meshCondition, List.mem_singleton, Value.map.injEq] at hm
    subst hm
    simp [List.lookup] at hr
  · rintro ⟨m, hm, _, hr⟩
    simp only [meshCondition, List.mem_singleton, Value.map.injEq] at hm
    subst hm
    simp [List.lookup] at hr
  · rintro ⟨m, hm, _, hr⟩
    simp only [meshCondition, List.mem_singleton, Value.map.injEq] at hm
    subst hm
    simp [List.lookup] at hr

/-- C20 (as stated) fails: the list `[ready condition, "garbage"]` holds an entry that is not
a map, yet each of the three predicates returns `(true, nil)`. -/
theorem serviceMesh_malformed_after_match :
    (∃ item ∈ readyThenMalformedItems, ∀ m, item ≠ .map m) ∧
    IsServiceMeshControlPlaneReady (some (meshResource readyThenMalformedItems)) = (true, none) ∧
    IsServiceMeshMemberRollReady (some (meshResource readyThenMalformedItems)) = (true, none) ∧
    IsServiceMeshMemberReady (some (meshResource readyThenMalformedItems)) = (true, none) := by
  refine ⟨⟨.string "garbage", by simp [readyThenMalformedItems], by intro m hm; cases hm⟩,
    ?_, ?_, ?_⟩
  · simp [IsServiceMeshControlPlaneReady, IsServiceMeshControlPlaneReady.loop, NestedSlice,
      NestedFieldNoCopy, NestedFieldNoCopy.loop, meshResource, readyThenMalformedItems,
      meshCondition, List.lookup, ifaceEqString]
  · simp [IsServiceMeshMemberRollReady, IsServiceMeshMemberRollReady.loop, NestedSlice,
      NestedFieldNoCopy, NestedFieldNoCopy.loop, meshResource, readyThenMalformedItems,
      meshCondition, List.lookup, ifaceEqString, ConditionStatusSuccess]
  · simp [IsServiceMeshMemberReady, IsServiceMeshMemberReady.loop, NestedSlice,
      NestedFieldNoCopy, NestedFieldNoCopy.loop, meshResource, readyThenMalformedItems,
      meshCondition, List.lookup, ifaceEqString, ConditionStatusSuccess]

/-- The loop of `AddActions` appends the non-nil entries, in order. -/
theorem AddActions_loop_eq {ρ σ : Type} (actions : List (Option (ControllerAction ρ σ))) :
    ∀ d : DesiredResourceState ρ σ,
      AddActions.loop d actions = d ++ actions.filter (fun a => a.isSome) := by
  induction actions with
  | nil => intro d; simp [AddActions.loop]
  | cons a rest ih =>
    intro d
    cases a with
    | none => simp [AddActions.loop, AddAction, ih]
    | some x => simp [AddActions.loop, AddAction, ih]

/-- C15: `AddActions` leaves the state equal to its old contents followed by the non-nil
entries of the added list in their original order; `AddAction(nil)` leaves it unchanged and
`AddAction` of a non-nil action appends exactly that action at the end; the value returned
equals the updated state. -/
theorem AddActions_appends_non_nil {ρ σ : Type} (d : DesiredResourceState ρ σ)
    (actions : List (Option (ControllerAction ρ σ))) (a : ControllerAction ρ σ) :
    (AddActions d actions).1 = d ++ actions.filter (fun x => x.isSome) ∧
    (AddActions d actions).2 = (AddActions d actions).1 ∧
    AddAction d none = (d, d) ∧
    (AddAction d (some a)).1 = d ++ [some a] ∧
    (AddAction d (some a)).2 = (AddAction d (some a)).1 :=
  ⟨AddActions_loop_eq actions d, rfl, rfl, rfl, rfl⟩

/-- C16: for `Create` and `Update`, when `skipOwnerRef` is false the owner reference of the
managing instance is set on the target before the store primitive is called; if setting it
fails that error is returned and the store is never invoked; when `skipOwnerRef` is true no
owner reference is set. The store primitive is invoked at most once, on the target as the
owner-reference step left it, and its error is returned unmodified. -/
theorem Create_Update_owner_reference {σ ι : Type} (i : ControllerActionRunner σ ι) (obj : ι)
    (s : σ) :
    (∀ e resource, i.scheme.SetControllerReference i.cr obj = (some e, resource) →
      ((i.Create obj false s).err = some e ∧
        (i.Create obj false s).calls = [.setControllerReference i.cr obj] ∧
        (i.Create obj false s).world = s) ∧
      ((i.Update obj false s).err = some e ∧
        (i.Update obj false s).calls = [.setControllerReference i.cr obj] ∧
        (i.Update obj false s).world = s)) ∧
    (∀ resource, i.scheme.SetControllerReference i.cr obj = (none, resource) →
      ((i.Create obj false s).err = (i.client.Create resource s).1 ∧
        (i.Create obj false s).calls = [.setControllerReference i.cr obj, .create resource] ∧
        (i.Create obj false s).world = (i.client.Create resource s).2) ∧
      ((i.Update obj false s).err = (i.client.Update resource s).1 ∧
        (i.Update obj false s).calls = [.setControllerReference i.cr obj, .update resource] ∧
        (i.Update obj false s).world = (i.client.Update resource s).2)) ∧
    (((i.Create obj true s).err = (i.client.Create obj s).1 ∧
        (i.Create obj true s).calls = [.create obj] ∧
        (i.Create obj true s).world = (i.client.Create obj s).2) ∧
      ((i.Update obj true s).err = (i.client.Update obj s).1 ∧
        (i.Update obj true s).calls = [.update obj] ∧
        (i.Update obj true s).world = (i.client.Update obj s).2)) ∧
    (∀ skipOwnerRef,
      ((i.Create obj skipOwnerRef s).calls.filter CallRecord.isStore).length ≤ 1 ∧
      ((i.Update obj skipOwnerRef s).calls.filter CallRecord.isStore).length ≤ 1) := by
  refine ⟨?_, ?_, ?_, ?_⟩
  · intro e resource h
    simp [ControllerActionRunner.Create, ControllerActionRunner.Update, h]
  · intro resource h
    simp only [ControllerActionRunner.Create, ControllerActionRunner.Update, h,
      Bool.not_false, if_true]
    rcases hc : i.client.Create resource s with ⟨ec, wc⟩
    rcases hu : i.client.Update resource s with ⟨eu, wu⟩
    cases ec <;> cases eu <;> simp
  · simp only [ControllerActionRunner.Create, ControllerActionRunner.Update, Bool.not_true,
      Bool.false_eq_true, if_false]
    rcases hc : i.client.Create obj s with ⟨ec, wc⟩
    rcases hu : i.client.Update obj s with ⟨eu, wu⟩
    cases ec <;> cases eu <;> simp
  · intro skipOwnerRef
    cases skipOwnerRef
    · simp only [ControllerActionRunner.Create, ControllerActionRunner.Update, Bool.not_false,
        if_true]
      rcases hs : i.scheme.SetControllerReference i.cr obj with ⟨es, resource⟩
      rcases hc : i.client.Create resource s with ⟨ec, wc⟩
      rcases hu : i.client.Update resource s with ⟨eu, wu⟩
      cases es <;> cases ec <;> cases eu <;> simp [hc, hu, CallRecord.isStore]
    · simp only [ControllerActionRunner.Create, ControllerActionRunner.Update, Bool.not_true,
        Bool.false_eq_true, if_false]
      rcases hc : i.client.Create obj s with ⟨ec, wc⟩
      rcases hu : i.client.Update obj s with ⟨eu, wu⟩
      cases ec <;> cases eu <;> simp [CallRecord.isStore]

/-- A target in another namespace than its owner: setting the owner reference fails, that
error is returned and the store is not called; a target in the namespace of the owner is
created after the owner reference was set. -/
theorem Create_Update_owner_reference_witness :
    ((sampleRunner.Create { Namespace := "other", Name := "target" } false 0).err
        = some (.fundamental "cross-namespace owner references are disallowed") ∧
      (sampleRunner.Create { Namespace := "other", Name := "target" } false 0).world = 0) ∧
    ((sampleRunner.Create { Namespace := "ns", Name := "target" } false 0).err = none ∧
      (sampleRunner.Create { Namespace := "ns", Name := "target" } false 0).world = 1) := by
  have h1 := (Create_Update_owner_reference sampleRunner
    { Namespace := "other", Name := "target" } 0).1
    (.fundamental "cross-namespace owner references are disallowed")
    { Namespace := "other", Name := "target" }
    (by simp [sampleRunner, NewControllerActionRunner, sameNamespaceScheme])
  have h2 := (Create_Update_owner_reference sampleRunner
    { Namespace := "ns", Name := "target" } 0).2.1
    { Namespace := "ns", Name := "target" }
    (by simp [sampleRunner, NewControllerActionRunner, sameNamespaceScheme])
  refine ⟨⟨h1.1.1, h1.1.2.2⟩, ?_, ?_⟩
  · rw [h2.1.1]
    simp [sampleRunner, NewControllerActionRunner, countingClient]
  · rw [h2.1.2.2]
    simp [sampleRunner, NewControllerActionRunner, countingClient]

/-- On a desired state without nil entries `RunAll` returns. -/
theorem RunAll_loop_returns {ρ σ : Type} (i : ρ) (as : List (ControllerAction ρ σ)) :
    ∀ (n : Nat) (t : RunTrace σ),
      ∃ r t', RunAll.loop i n (as.map some) t = (.returned r, t') := by
  induction as with
  | nil => intro n t; exact ⟨none, t, rfl⟩
  | cons a rest ih =>
    intro n t
    rcases hrun : a.Run i t.world with ⟨⟨msg, e⟩, w, written⟩
    cases e with
    | some err =>
      simp only [List.map_cons, RunAll.loop, hrun]
      exact ⟨_, _, rfl⟩
    | none =>
      simp only [List.map_cons, RunAll.loop, hrun]
      exact ih (n + 1) _

/-- The error `ManageSuccess` returns is nil. -/
theorem ManageSuccess_err_nil {σ ι : Type} (client : Client σ ι) (inst : ι)
    (statusConditions : List Condition) (resourcesReady : Bool) (now : Nat) (s : σ) :
    (ManageSuccess client inst statusConditions resourcesReady now s).err = none := by
  simp only [ManageSuccess]
  split <;> rfl

/-- The result and the Available condition of `ManageSuccess`. -/
theorem ManageSuccess_outcome {σ ι : Type} (client : Client σ ι) (inst : ι)
    (statusConditions : List Condition) (resourcesReady : Bool) (now : Nat) (s : σ) :
    (ManageSuccess client inst statusConditions resourcesReady now s).result
        = (if (client.StatusUpdate inst
                (ManageSuccess client inst statusConditions resourcesReady now s).conditions
                s).1 = none
           then { Requeue := false, RequeueAfter := 60 * (60 * 1000000000) }
           else { Requeue := true, RequeueAfter := 5 * 1000000000 }) ∧
    ∃ c, FindStatusCondition
          (ManageSuccess client inst statusConditions resourcesReady now s).conditions
          ConditionAvailable = some c ∧
        c.Status = (if resourcesReady = true then ConditionTrue else ConditionFalse) ∧
        c.Reason = (if resourcesReady = true then ReasonReconciling
                    else ReasonInitializing) := by
  constructor
  · simp only [ManageSuccess]
    split <;> rename_i e w h <;> simp [h, RequeueDelay, RequeueDelayError, Minute, Second]
  · cases resourcesReady
    · obtain ⟨c, h1, _, h3, h4, _⟩ := FindStatusCondition_SetStatusCondition now
        statusConditions
        { Type_ := ConditionAvailable, Status := ConditionFalse,
          Reason := ReasonInitializing, Message := "One or more resources are not ready",
          LastTransitionTime := 0 }
      refine ⟨c, ?_, by simpa using h3, by simpa using h4⟩
      simp only [ManageSuccess]
      split <;> simpa using h1
    · obtain ⟨c, h1, _, h3, h4, _⟩ := FindStatusCondition_SetStatusCondition now
        statusConditions
        { Type_ := ConditionAvailable, Status := ConditionTrue,
          Reason := ReasonReconciling, Message := "All resource are ready",
          LastTransitionTime := 0 }
      refine ⟨c, ?_, by simpa using h3, by simpa using h4⟩
      simp only [ManageSuccess]
      split <;> simpa using h1

/-- Prefixing the log of an outcome keeps a report through the condition. -/
theorem ReportedThroughCondition_map_log {σ : Type} (x : Completion (ManageOutcome σ))
    (issue : GoError) (msg : String) (l : List LogRecord)
    (h : ReportedThroughCondition x issue msg) :
    ReportedThroughCondition (x.map fun out => { out with log := l ++ out.log }) issue msg := by
  obtain ⟨out, h1, h2, h3, c, h4⟩ := h
  subst h1
  exact ⟨_, rfl, h2, h3, c, h4⟩

/-- C17 (amended): for every desired state without nil entries, `ReadCurrentState` and
`RunDesiredStateActions` return a nil error whenever `Error()` of the failure at hand
returns: an observation failure, an apply failure and an error of the readiness probe (a
not-ready error included) are reported through the Available condition (status False, the
message of the error, reason Initializing for a not-ready error and Failing otherwise) and
the 5 second requeue; a status-persistence failure shows only as the 5 second requeue of an
otherwise successful pass. -/
theorem cycle_returns_nil_error {σ ι : Type} (client : Client σ ι) (scheme : Scheme ι) (inst : ι)
    (conditions : List Condition) (currentState : ResourceState σ ι)
    (as : List (ControllerAction (ControllerActionRunner σ ι) σ)) (now : Nat) (s : σ) :
    (∀ w, currentState.Read inst s = (none, w) →
      ReadCurrentState client inst conditions currentState now s
        = .returned { result := { Requeue := false, RequeueAfter := 0 }, err := none,
                      conditions := conditions, world := w, log := [] }) ∧
    (∀ e w msg, currentState.Read inst s = (some e, w) → e.Error = .returned msg →
      ReportedThroughCondition (ReadCurrentState client inst conditions currentState now s)
        e msg) ∧
    (∃ r t, RunAll (NewControllerActionRunner client scheme inst) (as.map some) s
      = (.returned r, t)) ∧
    (∀ e t msg,
      RunAll (NewControllerActionRunner client scheme inst) (as.map some) s
        = (.returned (some e), t) →
      e.Error = .returned msg →
      ReportedThroughCondition
        (RunDesiredStateActions client scheme inst conditions currentState (as.map some) now s)
        e msg) ∧
    (∀ t ready e w msg,
      RunAll (NewControllerActionRunner client scheme inst) (as.map some) s
        = (.returned none, t) →
      currentState.IsResourcesReady inst t.world = ((ready, some e), w) →
      e.Error = .returned msg →
      ReportedThroughCondition
        (RunDesiredStateActions client scheme inst conditions currentState (as.map some) now s)
        e msg) ∧
    (∀ t ready w,
      RunAll (NewControllerActionRunner client scheme inst) (as.map some) s
        = (.returned none, t) →
      currentState.IsResourcesReady inst t.world = ((ready, none), w) →
      ∃ out, RunDesiredStateActions client scheme inst conditions currentState (as.map some)
          now s = .returned out ∧
        out.err = none ∧
        out.result = (if (client.StatusUpdate inst out.conditions w).1 = none
                      then { Requeue := false, RequeueAfter := 60 * (60 * 1000000000) }
                      else { Requeue := true, RequeueAfter := 5 * 1000000000 }) ∧
        ∃ c, FindStatusCondition out.conditions ConditionAvailable = some c ∧
          c.Status = (if ready = true then ConditionTrue else ConditionFalse) ∧
          c.Reason = (if ready = true then ReasonReconciling else ReasonInitializing)) := by
  refine ⟨?_, ?_, ?_, ?_, ?_, ?_⟩
  · intro w hread
    simp only [ReadCurrentState, hread]
  · intro e w msg hread hmsg
    simp only [ReadCurrentState, hread]
    exact ManageError_reported client inst conditions e now w msg hmsg
  · exact RunAll_loop_returns (NewControllerActionRunner client scheme inst) as 0
      { world := s, invoked := [], log := [] }
  · intro e t msg hrun hmsg
    simp only [RunDesiredStateActions, hrun]
    exact ReportedThroughCondition_map_log _ e msg t.log
      (ManageError_reported client inst conditions e now t.world msg hmsg)
  · intro t ready e w msg hrun hprobe hmsg
    simp only [RunDesiredStateActions, hrun, hprobe]
    exact ReportedThroughCondition_map_log _ e msg t.log
      (ManageError_reported client inst conditions e now w msg hmsg)
  · intro t ready w hrun hprobe
    simp only [RunDesiredStateActions, hrun, hprobe]
    have h := ManageSuccess_outcome client inst conditions ready now w
    exact ⟨_, rfl, ManageSuccess_err_nil client inst conditions ready now w, h.1, h.2⟩

/-- An observer that fails, an action that fails and a probe that reports a dependent not
ready yet: each is reported through the condition and the 5 second requeue, with a nil
error. -/
theorem cycle_returns_nil_error_witness :
    ReportedThroughCondition
      (ReadCurrentState countingClient { Namespace := "ns", Name := "owner" } []
        (failingReadState (.fundamental "cannot list")) 0 0)
      (.fundamental "cannot list") "cannot list" ∧
    ReportedThroughCondition
      (RunDesiredStateActions countingClient sameNamespaceScheme
        { Namespace := "ns", Name := "owner" } [] (probedState true)
        ([GenericErrorAction (some (.fundamental "boom")) "desired state"].map some) 0 0)
      (.fundamental "boom") "boom" ∧
    ReportedThroughCondition
      (RunDesiredStateActions countingClient sameNamespaceScheme
        { Namespace := "ns", Name := "owner" } [] notReadyState
        (([] : List (ControllerAction (ControllerActionRunner Nat ObjectMeta) Nat)).map some)
        0 0)
      (.resourceNotReady (some { PartialObject := some { Namespace := "ns", Name := "owner" } }))
      "ns/owner is not ready" :=
  ⟨(cycle_returns_nil_error countingClient sameNamespaceScheme
      { Namespace := "ns", Name := "owner" } []
      (failingReadState (.fundamental "cannot list")) [] 0 0).2.1
      (.fundamental "cannot list") 0 "cannot list" rfl rfl,
   (cycle_returns_nil_error countingClient sameNamespaceScheme
      { Namespace := "ns", Name := "owner" } [] (probedState true)
      [GenericErrorAction (some (.fundamental "boom")) "desired state"] 0 0).2.2.2.1
      (.fundamental "boom")
      { world := 0, invoked := [0], log := [.runInfo 0 "FAILED" "desired state"] }
      "boom" rfl rfl,
   (cycle_returns_nil_error countingClient sameNamespaceScheme
      { Namespace := "ns", Name := "owner" } [] notReadyState [] 0 0).2.2.2.2.1
      { world := 0, invoked := [], log := [] } false
      (.resourceNotReady (some { PartialObject := some { Namespace := "ns", Name := "owner" } }))
      0 "ns/owner is not ready" rfl rfl rfl⟩

/-- C17 (as stated) fails: when the readiness probe returns the not-ready error
`&ResourceNotReadyError{}`, whose `PartialObject` is nil, `RunDesiredStateActions` panics in
`issue.Error()` and returns nothing. -/
theorem RunDesiredStateActions_empty_not_ready_error_panics :
    RunDesiredStateActions countingClient sameNamespaceScheme
        { Namespace := "ns", Name := "owner" } [] emptyNotReadyState [] 0 0 = .panicked ∧
    ∀ out, RunDesiredStateActions countingClient sameNamespaceScheme
        { Namespace := "ns", Name := "owner" } [] emptyNotReadyState [] 0 0 ≠ .returned out := by
  have h : RunDesiredStateActions countingClient sameNamespaceScheme
      { Namespace := "ns", Name := "owner" } [] emptyNotReadyState [] 0 0 = .panicked := rfl
  refine ⟨h, fun out hout => ?_⟩
  rw [h] at hout
  cases hout

/-- C18 (amended): for every desired state whose actions all apply without error, and a
status update that succeeds, `RunDesiredStateActions` returns `RequeueAfter = 60 minutes`
whenever the readiness probe returns without error, whether it reports ready or not ready;
when the probe returns an error (whose `Error()` returns) the result is
`{RequeueAfter = 5 seconds, Requeue = true}`. -/
theorem RunDesiredStateActions_long_requeue {σ ι : Type} (client : Client σ ι)
    (scheme : Scheme ι) (inst : ι) (conditions : List Condition)
    (currentState : ResourceState σ ι)
    (desiredState : DesiredResourceState (ControllerActionRunner σ ι) σ) (now : Nat) (s : σ)
    (t : RunTrace σ)
    (hrun : RunAll (NewControllerActionRunner client scheme inst) desiredState s
      = (.returned none, t)) :
    (∀ ready w, currentState.IsResourcesReady inst t.world = ((ready, none), w) →
      (client.StatusUpdate inst (ManageSuccess client inst conditions ready now w).conditions
        w).1 = none →
      ∃ out, RunDesiredStateActions client scheme inst conditions currentState desiredState
          now s = .returned out ∧
        out.result = { Requeue := false, RequeueAfter := 60 * (60 * 1000000000) } ∧
        out.err = none) ∧
    (∀ ready e w msg, currentState.IsResourcesReady inst t.world = ((ready, some e), w) →
      e.Error = .returned msg →
      ∃ out, RunDesiredStateActions client scheme inst conditions currentState desiredState
          now s = .returned out ∧
        out.result = { Requeue := true, RequeueAfter := 5 * 1000000000 } ∧
        out.err = none) := by
  constructor
  · intro ready w hprobe hupd
    simp only [RunDesiredStateActions, hrun, hprobe]
    refine ⟨_, rfl, ?_, ManageSuccess_err_nil client inst conditions ready now w⟩
    have h := (ManageSuccess_outcome client inst conditions ready now w).1
    rw [hupd] at h
    simpa using h
  · intro ready e w msg hprobe hmsg
    simp only [RunDesiredStateActions, hrun, hprobe]
    obtain ⟨out, h1, h2, h3, _⟩ := ReportedThroughCondition_map_log _ e msg t.log
      (ManageError_reported client inst conditions e now w msg hmsg)
    exact ⟨out, h1, h3, h2⟩

/-- A desired state of two succeeding create actions with a probe that reports not ready
without error: the result is the long requeue. -/
theorem RunDesiredStateActions_long_requeue_witness :
    ∃ out, RunDesiredStateActions countingClient sameNamespaceScheme
        { Namespace := "ns", Name := "owner" } [] (probedState false)
        [some (GenericCreateAction { Namespace := "ns", Name := "a" } "create a" false),
         some (GenericCreateAction { Namespace := "ns", Name := "b" } "create b" true)]
        0 0 = .returned out ∧
      out.result = { Requeue := false, RequeueAfter := 60 * (60 * 1000000000) } ∧
      out.err = none :=
  (RunDesiredStateActions_long_requeue countingClient sameNamespaceScheme
    { Namespace := "ns", Name := "owner" } [] (probedState false) _ 0 0
    { world := 2, invoked := [0, 1],
      log := [.runInfo 0 "SUCCESS" "create a", .runInfo 1 "SUCCESS" "create b"] }
    (by simp [RunAll, RunAll.loop, GenericCreateAction, ControllerActionRunner.Create,
          NewControllerActionRunner, countingClient, sameNamespaceScheme])).1
    false 2 rfl rfl

/-- C18 (as stated) fails: with an empty desired state and a status update that succeeds, a
readiness probe that returns a not-ready error makes `RunDesiredStateActions` return
`{RequeueAfter = 5 seconds, Requeue = true}`, not 60 minutes. -/
theorem RunDesiredStateActions_probe_error_short_requeue :
    ∃ out, RunDesiredStateActions countingClient sameNamespaceScheme
        { Namespace := "ns", Name := "owner" } [] notReadyState [] 0 0 = .returned out ∧
      out.result = { Requeue := true, RequeueAfter := 5 * 1000000000 } ∧
      out.result.RequeueAfter ≠ 60 * (60 * 1000000000) := by
  refine ⟨_, rfl, ?_, ?_⟩
  · simp [RequeueDelayError, Second]
  · simp [RequeueDelayError, Second]

/-- The loop of `IsDeploymentReady` computes the verdict of the first deciding condition. -/
theorem IsDeploymentReady_loop_eq_first_deciding (Sprintf : String → String)
    (conditions : List DeploymentCondition) :
    IsDeploymentReady.loop Sprintf conditions = verdictOfFirstDeciding Sprintf conditions := by
  induction conditions with
  | nil => rfl
  | cons c rest ih =>
    by_cases h1 : c.Type_ = DeploymentReplicaFailure
    · simp [IsDeploymentReady.loop, verdictOfFirstDeciding, decidesVerdict, h1]
    · by_cases h2 : c.Type_ = DeploymentProgressing ∧ c.Status ≠ ConditionStatusSuccess
      · simp [IsDeploymentReady.loop, verdictOfFirstDeciding, decidesVerdict, h1, h2.1, h2.2]
      · have hd : decidesVerdict c = false := by
          simp only [decidesVerdict, Bool.or_eq_false_iff, beq_eq_false_iff_ne, ne_eq, h1,
            not_false_eq_true, true_and, Bool.and_eq_false_imp, beq_iff_eq, bne_eq_false_iff_eq]
          intro ht
          by_contra hs
          exact h2 ⟨ht, hs⟩
        rw [IsDeploymentReady.loop, if_neg h1, if_neg h2, ih]
        simp [verdictOfFirstDeciding, List.find?, hd]

/-- C21: for every non-nil Deployment the verdict of `IsDeploymentReady` is decided by the
first condition, in list order, that is of type ReplicaFailure or of type Progressing with a
status different from "True": `(false, error)` if it is a ReplicaFailure, `(false, nil)` if
it is a Progressing condition, `(true, nil)` if the list has no such condition (the empty
list included); the conditions after the deciding one are not consulted. -/
theorem IsDeploymentReady_first_deciding (Sprintf : String → String) (resource : Deployment) :
    IsDeploymentReady Sprintf (some resource)
        = verdictOfFirstDeciding Sprintf resource.Status.Conditions ∧
    ((∀ c ∈ resource.Status.Conditions, decidesVerdict c = false) →
      IsDeploymentReady Sprintf (some resource) = (true, none)) ∧
    (∀ pre c post, resource.Status.Conditions = pre ++ c :: post →
      (∀ x ∈ pre, decidesVerdict x = false) → decidesVerdict c = true →
      (c.Type_ = DeploymentReplicaFailure →
        IsDeploymentReady Sprintf (some resource) = (false, some (Errorf Sprintf c.Reason))) ∧
      (c.Type_ ≠ DeploymentReplicaFailure →
        c.Type_ = DeploymentProgressing ∧ c.Status ≠ ConditionStatusSuccess ∧
        IsDeploymentReady Sprintf (some resource) = (false, none)) ∧
      IsDeploymentReady Sprintf (some resource)
        = IsDeploymentReady Sprintf (some (deploymentWith (pre ++ [c])))) ∧
    IsDeploymentReady Sprintf (some (deploymentWith [])) = (true, none) := by
  have hfind : ∀ (pre : List DeploymentCondition) c post,
      (∀ x ∈ pre, decidesVerdict x = false) → decidesVerdict c = true →
      (pre ++ c :: post).find? decidesVerdict = some c := by
    intro pre c post hpre hc
    induction pre with
    | nil => simp [List.find?, hc]
    | cons x rest ih =>
      have hx := hpre x (List.mem_cons_self _ _)
      simp only [List.cons_append, List.find?, hx]
      exact ih (fun y hy => hpre y (List.mem_cons_of_mem _ hy))
  have heq : ∀ l, IsDeploymentReady Sprintf (some (deploymentWith l))
      = verdictOfFirstDeciding Sprintf l := fun l =>
    IsDeploymentReady_loop_eq_first_deciding Sprintf l
  have hres : IsDeploymentReady Sprintf (some resource)
      = verdictOfFirstDeciding Sprintf resource.Status.Conditions :=
    IsDeploymentReady_loop_eq_first_deciding Sprintf resource.Status.Conditions
  refine ⟨hres, ?_, ?_, rfl⟩
  · intro hnone
    rw [hres, verdictOfFirstDeciding, List.find?_eq_none.2 (by simpa using hnone)]
  · intro pre c post hsplit hpre hc
    have h1 := hfind pre c post hpre hc
    have h2 := hfind pre c [] hpre hc
    refine ⟨fun ht => ?_, fun ht => ?_, ?_⟩
    · rw [hres, hsplit, verdictOfFirstDeciding, h1]
      simp [ht]
    · have hprog : c.Type_ = DeploymentProgressing ∧ c.Status ≠ ConditionStatusSuccess := by
        simpa [decidesVerdict, ht] using hc
      refine ⟨hprog.1, hprog.2, ?_⟩
      rw [hres, hsplit, verdictOfFirstDeciding, h1]
      simp [ht]
    · rw [hres, heq, hsplit, verdictOfFirstDeciding, verdictOfFirstDeciding, h1, h2]

/-- The three deployments of the spec: `[{ReplicaFailure}]` gives `(false, error)`,
`[{Progressing, True}]` gives `(true, nil)`, `[{Progressing, False}]` gives `(false, nil)`;
and a deciding Progressing condition makes a ReplicaFailure behind it irrelevant. -/
theorem IsDeploymentReady_first_deciding_witness :
    IsDeploymentReady id (some (deploymentWith
        [{ Type_ := "ReplicaFailure", Status := "True", Reason := "FailedCreate" }]))
      = (false, some (Errorf id "FailedCreate")) ∧
    IsDeploymentReady id (some (deploymentWith
        [{ Type_ := "Progressing", Status := "True", Reason := "NewReplicaSetAvailable" }]))
      = (true, none) ∧
    IsDeploymentReady id (some (deploymentWith
        [{ Type_ := "Progressing", Status := "False", Reason := "ProgressDeadlineExceeded" }]))
      = (false, none) ∧
    IsDeploymentReady id (some (deploymentWith
        [{ Type_ := "Available", Status := "False", Reason := "MinimumReplicasUnavailable" },
         { Type_ := "Progressing", Status := "False", Reason := "ProgressDeadlineExceeded" },
         { Type_ := "ReplicaFailure", Status := "True", Reason := "FailedCreate" }]))
      = (false, none) := by
  refine ⟨?_, ?_, ?_, ?_⟩
  · exact ((IsDeploymentReady_first_deciding id (deploymentWith
        [{ Type_ := "ReplicaFailure", Status := "True", Reason := "FailedCreate" }])).2.2.1
      [] { Type_ := "ReplicaFailure", Status := "True", Reason := "FailedCreate" } [] rfl
      (by simp) (by decide)).1 rfl
  · exact (IsDeploymentReady_first_deciding id (deploymentWith
        [{ Type_ := "Progressing", Status := "True", Reason := "NewReplicaSetAvailable" }])).2.1
      (by intro c hc
          simp only [deploymentWith, List.mem_singleton] at hc
          subst hc
          decide)
  · exact (((IsDeploymentReady_first_deciding id (deploymentWith
        [{ Type_ := "Progressing", Status := "False", Reason := "ProgressDeadlineExceeded" }])).2.2.1
      [] { Type_ := "Progressing", Status := "False", Reason := "ProgressDeadlineExceeded" } []
      rfl (by simp) (by decide)).2.1 (by decide)).2.2
  · exact (((IsDeploymentReady_first_deciding id (deploymentWith
        [{ Type_ := "Available", Status := "False", Reason := "MinimumReplicasUnavailable" },
         { Type_ := "Progressing", Status := "False", Reason := "ProgressDeadlineExceeded" },
         { Type_ := "ReplicaFailure", Status := "True", Reason := "FailedCreate" }])).2.2.1
      [{ Type_ := "Available", Status := "False", Reason := "MinimumReplicasUnavailable" }]
      { Type_ := "Progressing", Status := "False", Reason := "ProgressDeadlineExceeded" }
      [{ Type_ := "ReplicaFailure", Status := "True", Reason := "FailedCreate" }]
      rfl
      (by intro x hx
          simp only [List.mem_singleton] at hx
          subst hx
          decide)
      (by decide)).2.1 (by decide)).2.2

end Actions

namespace Autodetect

open Actions

/-- The innermost loop of `DetectCapabilities` ends true exactly when it started true or a
resource of the kind is in the list. -/
theorem DetectCapabilities_resources_iff (gvk : GroupVersionKind) (found : Bool)
    (l : List APIResource) :
    DetectCapabilities.resources gvk found l = true ↔
      found = true ∨ ∃ r ∈ l, r.Kind = gvk.Kind := by
  induction l with
  | nil => simp [DetectCapabilities.resources]
  | cons r rest ih =>
    by_cases h : r.Kind = gvk.Kind
    · simp [DetectCapabilities.resources, h]
    · simp [DetectCapabilities.resources, h, ih]

/-- The loop of `DetectCapabilities` over the resource lists ends true exactly when it
started true or a list of the group/version holds a resource of the kind. -/
theorem DetectCapabilities_lists_iff (gvk : GroupVersionKind) (l : List APIResourceList) :
    ∀ found : Bool, DetectCapabilities.lists gvk found l = true ↔
      found = true ∨ ∃ apiList ∈ l, apiList.GroupVersion = gvk.GroupVersion.String ∧
        ∃ r ∈ apiList.APIResources, r.Kind = gvk.Kind := by
  induction l with
  | nil => intro found; simp [DetectCapabilities.lists]
  | cons a rest ih =>
    intro found
    by_cases h : a.GroupVersion = gvk.GroupVersion.String
    · simp only [DetectCapabilities.lists, h, if_true, ih, DetectCapabilities_resources_iff,
        List.mem_cons, exists_eq_or_imp, true_and]
      exact or_assoc
    · simp only [DetectCapabilities.lists, h, if_false, ih, List.mem_cons, exists_eq_or_imp,
        false_and, false_or]

/-- The loop of `DetectCapabilities` over the watched kinds leaves alone every key that is
not the key of a watched kind. -/
theorem DetectCapabilities_loop_other_key (apiLists : List APIResourceList) (k : String)
    (l : List GroupVersionKind) :
    ∀ sm : StateManager, (∀ g ∈ l, g.String ≠ k) →
      (DetectCapabilities.loop apiLists sm l).state k = sm.state k := by
  induction l with
  | nil => intro sm _; rfl
  | cons g rest ih =>
    intro sm h
    have hg : k ≠ g.String := fun e => h g (List.mem_cons_self _ _) e.symm
    rw [DetectCapabilities.loop, ih _ (fun x hx => h x (List.mem_cons_of_mem _ hx))]
    simp [StateManager.SetState, hg]

/-- The loop of `DetectCapabilities` over the watched kinds writes, under the key of a watched
kind that shares its key with no other watched kind, whether the catalog lists the kind. -/
theorem DetectCapabilities_loop_watched_key (apiLists : List APIResourceList)
    (g : GroupVersionKind) (l : List GroupVersionKind) :
    ∀ sm : StateManager, g ∈ l → (∀ g' ∈ l, g'.String = g.String → g' = g) →
      (DetectCapabilities.loop apiLists sm l).state g.String
        = some (DetectCapabilities.lists g false apiLists) := by
  induction l with
  | nil => intro sm hg; cases hg
  | cons h rest ih =>
    intro sm hg hkey
    by_cases hrest : g ∈ rest
    · rw [DetectCapabilities.loop]
      exact ih _ hrest (fun x hx => hkey x (List.mem_cons_of_mem _ hx))
    · have hgh : g = h := by
        rcases List.mem_cons.1 hg with e | e
        · exact e
        · exact absurd e hrest
      subst hgh
      rw [DetectCapabilities.loop, DetectCapabilities_loop_other_key]
      · simp [StateManager.SetState]
      · intro x hx e
        exact hrest (hkey x (List.mem_cons_of_mem _ hx) e ▸ hx)

/-- C12 (amended): after `DetectCapabilities` ran with a discovery query that succeeded, for
every watched kind `g` whose key string is shared by no other watched kind, and whatever the
store held before, `IsResourceAvailable(g)` is true exactly when the catalog holds a resource
list whose GroupVersion is the group/version string of `g` with a resource of the kind of
`g`. -/
theorem DetectCapabilities_available_iff (config : DetectConfig)
    (apiLists : List APIResourceList) (sm : StateManager) (g : GroupVersionKind)
    (hg : g ∈ config.GroupVersionKinds)
    (hkey : ∀ g' ∈ config.GroupVersionKinds, g'.String = g.String → g' = g) :
    IsResourceAvailable (DetectCapabilities config (apiLists, none) sm).1 g = true ↔
      ∃ apiList ∈ apiLists, apiList.GroupVersion = g.GroupVersion.String ∧
        ∃ r ∈ apiList.APIResources, r.Kind = g.Kind := by
  have h := DetectCapabilities_loop_watched_key apiLists g config.GroupVersionKinds sm hg hkey
  simp only [IsResourceAvailable, StateManager.GetState, DetectCapabilities, h,
    DetectCapabilities_lists_iff]
  simp

/-- The watched kinds of the test with `kind1` available before: a catalog listing only
`kind2` makes `kind1` unavailable and `kind2` available. -/
theorem DetectCapabilities_available_iff_witness :
    IsResourceAvailable (StateManager.empty.SetState (testKind "kind1").String true)
      (testKind "kind1") = true ∧
    IsResourceAvailable (DetectCapabilities (testConfig false) (testCatalog ["kind2"], none)
      (StateManager.empty.SetState (testKind "kind1").String true)).1 (testKind "kind1")
      = false ∧
    IsResourceAvailable (DetectCapabilities (testConfig false) (testCatalog ["kind2"], none)
      (StateManager.empty.SetState (testKind "kind1").String true)).1 (testKind "kind2")
      = true := by
  have hkey : ∀ a b : String, ∀ g' ∈ (testConfig false).GroupVersionKinds,
      (a = "kind1" ∨ a = "kind2") → g'.String = (testKind a).String → b = a →
      g' = testKind b := by
    intro a b g' hg' ha he hb
    subst hb
    simp only [testConfig, List.mem_cons, List.mem_singleton, List.not_mem_nil, or_false] at hg'
    rcases hg' with rfl | rfl <;> rcases ha with rfl | rfl <;>
      first
        | rfl
        | (exfalso; revert he; decide)
  have h1 := DetectCapabilities_available_iff (testConfig false) (testCatalog ["kind2"])
    (StateManager.empty.SetState (testKind "kind1").String true) (testKind "kind1")
    (by simp [testConfig])
    (fun g' hg' he => hkey "kind1" "kind1" g' hg' (Or.inl rfl) he rfl)
  have h2 := DetectCapabilities_available_iff (testConfig false) (testCatalog ["kind2"])
    (StateManager.empty.SetState (testKind "kind1").String true) (testKind "kind2")
    (by simp [testConfig])
    (fun g' hg' he => hkey "kind2" "kind2" g' hg' (Or.inr rfl) he rfl)
  refine ⟨?_, ?_, ?_⟩
  · simp [IsResourceAvailable, StateManager.GetState, StateManager.SetState]
  · rw [← Bool.not_eq_true, h1]
    simp [testCatalog, testKind]
  · rw [h2]
    exact ⟨_, List.mem_singleton.2 rfl, by decide, _, List.mem_singleton.2 rfl, rfl⟩

/-- The first loop of `autoDetectCapabilities` records, under each key, the availability of a
watched kind with that key, and leaves the other keys alone. -/
theorem autoDetectCapabilities_snapshot_spec (sm : StateManager) (k : String)
    (l : List GroupVersionKind) :
    ∀ m : String → Option Bool,
      (∃ g ∈ l, g.String = k ∧
        autoDetectCapabilities.snapshot sm m l k = some (IsResourceAvailable sm g)) ∨
      ((∀ g ∈ l, g.String ≠ k) ∧ autoDetectCapabilities.snapshot sm m l k = m k) := by
  induction l with
  | nil => intro m; exact Or.inr ⟨by simp, rfl⟩
  | cons h rest ih =>
    intro m
    rw [autoDetectCapabilities.snapshot]
    rcases ih (fun k' => if k' = h.String then some (IsResourceAvailable sm h) else m k')
      with ⟨g, hg, hk, hv⟩ | ⟨hne, hv⟩
    · exact Or.inl ⟨g, List.mem_cons_of_mem _ hg, hk, hv⟩
    · by_cases hh : h.String = k
      · refine Or.inl ⟨h, List.mem_cons_self _ _, hh, ?_⟩
        rw [hv]
        simp [hh]
      · refine Or.inr ⟨?_, ?_⟩
        · intro g hg
          rcases List.mem_cons.1 hg with rfl | hg
          · exact hh
          · exact hne g hg
        · rw [hv]
          simp [Ne.symm hh]

/-- Reading `previousState` for a watched kind gives its availability before the poll. -/
theorem autoDetectCapabilities_before (sm : StateManager) (l : List GroupVersionKind)
    (g : GroupVersionKind) (hg : g ∈ l) :
    (autoDetectCapabilities.snapshot sm (fun _ => none) l g.String).getD false
      = IsResourceAvailable sm g := by
  rcases autoDetectCapabilities_snapshot_spec sm g.String l (fun _ => none)
    with ⟨g', _, hk, hv⟩ | ⟨hne, _⟩
  · rw [hv]
    simp [IsResourceAvailable, hk]
  · exact absurd rfl (hne g hg)

/-- The second loop of `autoDetectCapabilities` ends in `os.Exit(1)` exactly when exit on
change is set and some kind read differently before and after; otherwise it completes. -/
theorem autoDetectCapabilities_loop_outcome (exitOnChange : Bool)
    (prev : String → Option Bool) (sm : StateManager) (l : List GroupVersionKind) :
    ∀ log : List LogRecord,
      ((autoDetectCapabilities.loop exitOnChange prev sm l log).1 = .exited 1 ↔
        exitOnChange = true ∧
          ∃ g ∈ l, (prev g.String).getD false ≠ IsResourceAvailable sm g) ∧
      ((autoDetectCapabilities.loop exitOnChange prev sm l log).1 = .completed ↔
        ¬ (exitOnChange = true ∧
          ∃ g ∈ l, (prev g.String).getD false ≠ IsResourceAvailable sm g)) := by
  induction l with
  | nil => intro log; simp [autoDetectCapabilities.loop]
  | cons g rest ih =>
    intro log
    simp only [autoDetectCapabilities.loop]
    cases hb : (prev g.String).getD false <;> cases ha : IsResourceAvailable sm g <;>
      cases exitOnChange <;> simp [hb, ha, ih]

/-- C13: when the discovery query returns an error, `DetectCapabilities` leaves the state
store as it was, and the tick of `autoDetectCapabilities` completes without terminating the
process, whatever `ExitOnChange` is. -/
theorem discovery_error_keeps_state (config : DetectConfig) (apiLists : List APIResourceList)
    (err : GoError) (sm : StateManager) (g : GroupVersionKind) :
    (DetectCapabilities config (apiLists, some err) sm).1 = sm ∧
    IsResourceAvailable (DetectCapabilities config (apiLists, some err) sm).1 g
      = IsResourceAvailable sm g ∧
    (autoDetectCapabilities config (apiLists, some err) sm).outcome = .completed ∧
    (autoDetectCapabilities config (apiLists, some err) sm).store = sm := by
  refine ⟨rfl, rfl, ?_, rfl⟩
  simp only [autoDetectCapabilities]
  rw [(autoDetectCapabilities_loop_outcome _ _ _ _ _).2]
  rintro ⟨_, g', hg', hne⟩
  exact hne (autoDetectCapabilities_before sm _ g' hg')

/-- C14 (amended): `IsResourceAvailable` returns false for every kind whose key was never
written to the state store; `DetectCapabilities` writes only the keys of the watched kinds,
so a kind whose key is not the key of a watched kind stays unavailable whatever the catalog
lists. -/
theorem unwatched_kind_stays_unavailable (config : DetectConfig)
    (discovery : List APIResourceList × Option GoError) (sm : StateManager)
    (g : GroupVersionKind)
    (hunseen : sm.GetState g.String = none)
    (hunwatched : ∀ w ∈ config.GroupVersionKinds, w.String ≠ g.String) :
    IsResourceAvailable sm g = false ∧
    (DetectCapabilities config discovery sm).1.GetState g.String = none ∧
    IsResourceAvailable (DetectCapabilities config discovery sm).1 g = false := by
  have hsame : (DetectCapabilities config discovery sm).1.GetState g.String = none := by
    rcases discovery with ⟨apiLists, err⟩
    cases err with
    | some e => exact hunseen
    | none =>
      simp only [DetectCapabilities, StateManager.GetState]
      rw [DetectCapabilities_loop_other_key apiLists g.String _ sm hunwatched]
      exact hunseen
  refine ⟨?_, hsame, ?_⟩
  · simp [IsResourceAvailable, hunseen]
  · simp [IsResourceAvailable, hsame]

/-- The kind `unknown` of the package test: unavailable in the fresh store and still
unavailable after a poll whose catalog lists `kind1`, `kind2` and `unknown`. -/
theorem unwatched_kind_stays_unavailable_witness :
    IsResourceAvailable StateManager.empty (testKind "unknown") = false ∧
    IsResourceAvailable (DetectCapabilities (testConfig false)
      (testCatalog ["kind1", "kind2", "unknown"], none) StateManager.empty).1
      (testKind "unknown") = false := by
  have h := unwatched_kind_stays_unavailable (testConfig false)
    (testCatalog ["kind1", "kind2", "unknown"], none) StateManager.empty (testKind "unknown")
    rfl
    (by intro w hw
        simp only [testConfig, List.mem_cons, List.mem_singleton, List.not_mem_nil,
          or_false] at hw
        rcases hw with rfl | rfl <;> decide)
  exact ⟨h.1, h.2.2⟩

/-- C19: one tick of `autoDetectCapabilities` terminates the process exactly when
`ExitOnChange` is set and, for some watched kind, the availability read before the poll
differs from the availability read after it; otherwise the tick completes. -/
theorem autoDetectCapabilities_exit_iff (config : DetectConfig)
    (discovery : List APIResourceList × Option GoError) (sm : StateManager) :
    ((autoDetectCapabilities config discovery sm).outcome = .exited 1 ↔
      config.ExitOnChange = true ∧ ∃ g ∈ config.GroupVersionKinds,
        IsResourceAvailable sm g
          ≠ IsResourceAvailable (DetectCapabilities config discovery sm).1 g) ∧
    ((autoDetectCapabilities config discovery sm).outcome = .completed ↔
      ¬ (config.ExitOnChange = true ∧ ∃ g ∈ config.GroupVersionKinds,
        IsResourceAvailable sm g
          ≠ IsResourceAvailable (DetectCapabilities config discovery sm).1 g)) := by
  have hex : (∃ g ∈ config.GroupVersionKinds,
        (autoDetectCapabilities.snapshot sm (fun _ => none) config.GroupVersionKinds
          g.String).getD false
          ≠ IsResourceAvailable (DetectCapabilities config discovery sm).1 g) ↔
      ∃ g ∈ config.GroupVersionKinds, IsResourceAvailable sm g
          ≠ IsResourceAvailable (DetectCapabilities config discovery sm).1 g := by
    constructor
    · rintro ⟨g, hg, h⟩
      exact ⟨g, hg, by rwa [autoDetectCapabilities_before sm _ g hg] at h⟩
    · rintro ⟨g, hg, h⟩
      exact ⟨g, hg, by rwa [autoDetectCapabilities_before sm _ g hg]⟩
  have h := autoDetectCapabilities_loop_outcome config.ExitOnChange
    (autoDetectCapabilities.snapshot sm (fun _ => none) config.GroupVersionKinds)
    (DetectCapabilities config discovery sm).1 config.GroupVersionKinds
    (DetectCapabilities config discovery sm).2
  rw [hex] at h
  exact h

/-- C12 (as stated) fails: two watched kinds with the same key string; the catalog lists the
first, the second is polled last and is not listed, so the first reads unavailable after the
poll although the catalog holds its group/version and kind. -/
theorem DetectCapabilities_colliding_watched_keys :
    collidingKindA ∈ [collidingKindA, collidingKindB] ∧
    collidingKindA.String = collidingKindB.String ∧
    (∃ apiList ∈ collidingCatalog, apiList.GroupVersion = collidingKindA.GroupVersion.String ∧
      ∃ r ∈ apiList.APIResources, r.Kind = collidingKindA.Kind) ∧
    IsResourceAvailable
      (DetectCapabilities { GroupVersionKinds := [collidingKindA, collidingKindB] }
        (collidingCatalog, none) StateManager.empty).1 collidingKindA = false := by
  refine ⟨List.mem_cons_self _ _, by decide,
    ⟨_, List.mem_singleton.2 rfl, by decide, _, List.mem_singleton.2 rfl, rfl⟩, ?_⟩
  decide

/-- C14 (as stated) fails: a kind that is not watched and whose key was never written shares
its key string with the one watched kind; after a poll whose catalog lists the watched kind
it reads available. -/
theorem unwatched_kind_with_watched_key_becomes_available :
    collidingKindB ∉ [collidingKindA] ∧
    StateManager.empty.GetState collidingKindB.String = none ∧
    IsResourceAvailable StateManager.empty collidingKindB = false ∧
    IsResourceAvailable
      (DetectCapabilities { GroupVersionKinds := [collidingKindA] }
        (collidingCatalog, none) StateManager.empty).1 collidingKindB = true := by
  refine ⟨by decide, rfl, rfl, ?_⟩
  decide

end Autodetect
